import Mathlib

/-!
Verification of the ruvvector-service learning core: a shallow embedding of
the approval-learning handler, the feedback-assimilation normalizer, the
inputs-hash idempotency utility, and the decision-events aggregation and
cursor-pagination endpoint, together with proofs settling the specification
claims about them.

String values are modelled with Lean `String` (a list of characters, matching
the JavaScript code-unit view for the ASCII data involved), JavaScript numbers
with `ℚ` (all arithmetic performed by the code on these values is exact on
float64), and timestamps by their millisecond value as `Nat`.
-/

namespace RuvSvc

/- ============================================================
   JavaScript string primitives used by the handlers
   ============================================================ -/

/-- Whitespace characters recognised by the JavaScript `parseInt` / `trim` model. -/
def jsWhitespace (c : Char) : Bool :=
  c = ' ' || c = '\t' || c = '\n' || c = '\r'

/-- Decimal digit test ('0'..'9'). -/
def isDigitChar (c : Char) : Bool :=
  decide ('0' ≤ c) && decide (c ≤ '9')

/-- Value of a non-empty digit string read left to right. -/
def digitsVal (l : List Char) : Nat :=
  l.foldl (fun acc c => acc * 10 + (c.toNat - 48)) 0

/-- Leading-digit parse: JavaScript `parseInt` consumes the longest digit
prefix and yields NaN (`none`) when there is none. -/
def parseDigits (l : List Char) : Option Nat :=
  let ds := l.takeWhile isDigitChar
  if ds = [] then none else some (digitsVal ds)

/-- Model of JavaScript `parseInt(s, 10)`: skip leading whitespace, optional
sign, then the longest digit prefix; `none` models NaN. -/
def jsParseInt (s : String) : Option Int :=
  match s.data.dropWhile jsWhitespace with
  | [] => none
  | c :: rest =>
    if c = '-' then (parseDigits rest).map (fun n => -(n : Int))
    else if c = '+' then (parseDigits rest).map (fun n => (n : Int))
    else (parseDigits (c :: rest)).map (fun n => (n : Int))

/-- Split a character list at every occurrence of `sep`
(JavaScript `String.prototype.split` with a single-character separator). -/
def splitByChar (sep : Char) : List Char → List (List Char)
  | [] => [[]]
  | c :: cs =>
    match splitByChar sep cs with
    | [] => [[]]
    | t :: ts => if c = sep then [] :: t :: ts else (c :: t) :: ts

/-- JavaScript `s.split(sep)` for a one-character separator. -/
def jsSplit (s : String) (sep : Char) : List String :=
  (splitByChar sep s.data).map String.mk

/-- Join character lists with a separator (JavaScript `Array.prototype.join`). -/
def joinByChar (sep : Char) : List (List Char) → List Char
  | [] => []
  | [x] => x
  | x :: y :: rest => x ++ sep :: joinByChar sep (y :: rest)

/-- JavaScript `parts.join(':')`. -/
def joinColon (xs : List String) : String :=
  String.mk (joinByChar ':' (xs.map String.data))

/-- Character for a decimal digit value below ten. -/
def digitChar : Nat → Char
  | 0 => '0' | 1 => '1' | 2 => '2' | 3 => '3' | 4 => '4'
  | 5 => '5' | 6 => '6' | 7 => '7' | 8 => '8' | _ => '9'

/-- Fuel-indexed digit emitter for decimal printing (structural recursion so
that concrete evaluation reduces in the kernel). -/
def natToDecimalGo : Nat → Nat → List Char
  | 0, _ => []
  | fuel + 1, n => if n = 0 then [] else natToDecimalGo fuel (n / 10) ++ [digitChar (n % 10)]

/-- Decimal rendering of a natural number, as JavaScript prints an integer. -/
def natToDecimal (n : Nat) : String :=
  if n = 0 then "0" else String.mk (natToDecimalGo n n)

/-- JavaScript `s.trim()` (restricted to the ASCII whitespace that occurs here). -/
def jsTrim (s : String) : String :=
  String.mk (((s.data.dropWhile jsWhitespace).reverse.dropWhile jsWhitespace).reverse)

/-- JavaScript `s.toLowerCase()` (ASCII case mapping). -/
def jsToLower (s : String) : String :=
  String.mk (s.data.map Char.toLower)

/-- Does the second list occur as a prefix of the first list's start? -/
def charsBeginWith : List Char → List Char → Bool
  | [], _ => true
  | _ :: _, [] => false
  | a :: as, b :: bs => a = b && charsBeginWith as bs

/-- Does `needle` occur contiguously inside the list? -/
def charsContain : List Char → List Char → Bool
  | [], needle => needle.isEmpty
  | c :: tl, needle => charsBeginWith needle (c :: tl) || charsContain tl needle

/-- JavaScript `hay.includes(sub)`: contiguous substring test. -/
def containsSub (hay sub : String) : Bool :=
  charsContain hay.data sub.data

/-- Strict code-unit lexicographic comparison of character lists (JavaScript
`<` on strings, and the C-collation text order of the datastore). -/
def charListLt : List Char → List Char → Bool
  | [], [] => false
  | [], _ :: _ => true
  | _ :: _, [] => false
  | a :: as, b :: bs =>
    if a.toNat < b.toNat then true
    else if b.toNat < a.toNat then false
    else charListLt as bs

/-- Reflexive code-unit lexicographic comparison of character lists. -/
def charListLe : List Char → List Char → Bool
  | [], _ => true
  | _ :: _, [] => false
  | a :: as, b :: bs =>
    if a.toNat < b.toNat then true
    else if b.toNat < a.toNat then false
    else charListLe as bs

/-- `a < b` on strings, by code units. -/
def jsStrLt (a b : String) : Bool := charListLt a.data b.data

/-- `a <= b` on strings, by code units. -/
def jsStrLe (a b : String) : Bool := charListLe a.data b.data

/-- Totality of the string comparison (proof term used by the sort instances). -/
def charListLe_total : ∀ a b : List Char, charListLe a b = true ∨ charListLe b a = true := by
  intro a
  induction a with
  | nil => intro b; left; rfl
  | cons x as ih =>
    intro b
    cases b with
    | nil => right; rfl
    | cons y bs =>
      simp only [charListLe]
      rcases Nat.lt_trichotomy x.toNat y.toNat with h | h | h
      · left; simp [h]
      · have h1 : ¬x.toNat < y.toNat := by omega
        have h2 : ¬y.toNat < x.toNat := by omega
        rcases ih bs with h3 | h3
        · left; simp [h1, h2, h3]
        · right; simp [h1, h2, h3]
      · right; simp [h, Nat.lt_asymm h]

/-- Transitivity of the string comparison. -/
def charListLe_trans : ∀ a b c : List Char,
    charListLe a b = true → charListLe b c = true → charListLe a c = true := by
  intro a
  induction a with
  | nil => intro b c _ _; rfl
  | cons x as ih =>
    intro b c hab hbc
    cases b with
    | nil => simp [charListLe] at hab
    | cons y bs =>
      cases c with
      | nil => simp [charListLe] at hbc
      | cons z cs =>
        simp only [charListLe] at hab hbc ⊢
        by_cases h1 : x.toNat < y.toNat
        · by_cases h2 : y.toNat < z.toNat
          · simp [Nat.lt_trans h1 h2]
          · by_cases h3 : z.toNat < y.toNat
            · simp [h2, h3] at hbc
            · have h4 : x.toNat < z.toNat := by omega
              simp [h4]
        · by_cases h4 : y.toNat < x.toNat
          · simp [h1, h4] at hab
          · by_cases h2 : y.toNat < z.toNat
            · have h5 : x.toNat < z.toNat := by omega
              simp [h5]
            · by_cases h3 : z.toNat < y.toNat
              · simp [h2, h3] at hbc
              · have h5 : ¬x.toNat < z.toNat := by omega
                have h6 : ¬z.toNat < x.toNat := by omega
                simp only [h1, h4, if_false] at hab
                simp only [h2, h3, if_false] at hbc
                simp only [h5, h6, if_false]
                exact ih bs cs hab hbc

/-- Antisymmetry of the string comparison. -/
def charListLe_antisymm : ∀ a b : List Char,
    charListLe a b = true → charListLe b a = true → a = b := by
  intro a
  induction a with
  | nil =>
    intro b _ hba
    cases b with
    | nil => rfl
    | cons y bs => simp [charListLe] at hba
  | cons x as ih =>
    intro b hab hba
    cases b with
    | nil => simp [charListLe] at hab
    | cons y bs =>
      simp only [charListLe] at hab hba
      by_cases h : x.toNat < y.toNat
      · simp [h, Nat.lt_asymm h] at hba
      · by_cases h2 : y.toNat < x.toNat
        · simp [h, h2] at hab
        · simp only [h, h2, if_false] at hab hba
          have hx : x = y := by
            have h3 : x.toNat = y.toNat := by omega
            calc x = Char.ofNat x.toNat := (Char.ofNat_toNat x).symm
              _ = Char.ofNat y.toNat := by rw [h3]
              _ = y := Char.ofNat_toNat y
          rw [hx, ih bs hab hba]

/-- Irreflexivity of the strict string comparison. -/
def charListLt_irrefl : ∀ a : List Char, charListLt a a = false := by
  intro a
  induction a with
  | nil => rfl
  | cons x as ih => simp [charListLt, ih]

/- ============================================================
   Decision events model (GET /events/decisions)
   Source: src/src/handlers/learning/feedbackAssimilation.ts
   (decision events section), faithful to the SQL query text and
   the in-memory merge/sort/trim of `listDecisionEventsHandler`.
   ============================================================ -/

/-- A row of the `decisions` relation, with the columns selected by the
plan-created query. -/
structure DecisionRow where
  id : String
  created_at : Nat
  objective : String
  recommendation : String
  confidence : String
  command : String
  raw_output_hash : String
deriving DecidableEq

/-- A row of the `approvals` relation, with the columns used by the
approvals query. -/
structure ApprovalRow where
  id : String
  decision_id : String
  approved : Bool
  reward : ℚ
  confidence_adjustment : Option ℚ
  created_at : Nat
deriving DecidableEq

/-- One result row of the approvals query after its inner `JOIN decisions`. -/
structure JoinedApprovalRow where
  id : String
  decision_id : String
  approved : Bool
  reward : ℚ
  confidence_adjustment : Option ℚ
  created_at : Nat
  objective : String
  recommendation : String
deriving DecidableEq

/-- The four decision event types. -/
inductive DecisionEventType where
  | plan_created
  | plan_approved
  | plan_rejected
  | plan_deferred
deriving DecidableEq

/-- String tag of a decision event type. -/
def eventTypeStr : DecisionEventType → String
  | .plan_created => "plan_created"
  | .plan_approved => "plan_approved"
  | .plan_rejected => "plan_rejected"
  | .plan_deferred => "plan_deferred"

/-- Decision event payload; optional fields model the per-type payload shape
of the `DecisionEventPayload` interface. -/
structure DecisionEventPayload where
  plan_id : Option String := none
  simulation_id : Option String := none
  decision_id : Option String := none
  objective : Option String := none
  recommendation : Option String := none
  confidence : Option String := none
  command : Option String := none
  checksum : Option String := none
  reward : Option ℚ := none
  confidence_adjustment : Option (Option ℚ) := none
  reviewer_outcome : Option String := none
deriving DecidableEq

/-- A decision event as returned by GET /events/decisions; `timestamp` is the
millisecond value of the row's `created_at`. -/
structure DecisionEvent where
  id : String
  type : DecisionEventType
  timestamp : Nat
  payload : DecisionEventPayload
deriving DecidableEq

/-- Response body of GET /events/decisions. -/
structure DecisionEventsResponse where
  events : List DecisionEvent
  next_cursor : Option String
deriving DecidableEq

/-- Default pagination limit. -/
def DEFAULT_LIMIT : Nat := 100

/-- Maximum pagination limit. -/
def MAX_LIMIT : Nat := 1000

/-- The valid event type tags accepted by the `types` filter. -/
def validTypes : List String :=
  ["plan_created", "plan_approved", "plan_rejected", "plan_deferred"]

/-- Model of `parseEventTypes`: split the comma-separated parameter, trim and
lowercase each piece, keep the valid ones; an empty result means no filter. -/
def parseEventTypes (typesParam : Option String) : Option (List String) :=
  match typesParam with
  | none => none
  | some s =>
    if s = "" then none
    else
      let requested := (jsSplit s ',').map (fun t => jsToLower (jsTrim t))
      let filtered := requested.filter (fun t => validTypes.contains t)
      if filtered.length > 0 then some filtered else none

/-- `!eventTypes || eventTypes.includes(t)` from the handler. -/
def includesType (et : Option (List String)) (t : String) : Bool :=
  match et with
  | none => true
  | some l => l.contains t

/-- Effective page size: `Math.min(Math.max(parseInt(limit, 10) || 100, 1), 1000)`.
JavaScript `||` replaces both NaN and 0 by the default. -/
def effLimit (limitParam : Option String) : Nat :=
  let raw : Int :=
    match limitParam with
    | none => (DEFAULT_LIMIT : Int)
    | some s =>
      match jsParseInt s with
      | none => (DEFAULT_LIMIT : Int)
      | some n => if n = 0 then (DEFAULT_LIMIT : Int) else n
  (min (max raw 1) (MAX_LIMIT : Int)).toNat

/-- Parsed components of a pagination cursor. -/
structure CursorParts where
  type : String
  id : String
  timestampMs : Int
deriving DecidableEq

/-- Model of `parseCursor`: split on ':'; fewer than three segments or a NaN
trailing segment yield `none`; the row id is the middle segments rejoined. -/
def parseCursor (cursor : String) : Option CursorParts :=
  let parts := jsSplit cursor ':'
  if parts.length < 3 then none
  else
    parts.getLast?.bind (fun tsStr =>
      (jsParseInt tsStr).map (fun n =>
        { type := parts.headD (""), id := joinColon ((parts.drop 1).dropLast),
          timestampMs := n }))

/-- Model of `buildEventId`: `type:id:timestampMillis`. -/
def buildEventId (ty : String) (rowId : String) (tsMs : Nat) : String :=
  ty ++ ":" ++ rowId ++ ":" ++ natToDecimal tsMs

/-- The handler applies the cursor only when `after` is a truthy string. -/
def cursorOf (after : Option String) : Option CursorParts :=
  match after with
  | none => none
  | some s => if s = "" then none else parseCursor s

/-- SQL row predicate `(created_at, id) > ($ts, $id)` applied when a cursor
is present. -/
def cursorKeep (cursor : Option CursorParts) (ts : Nat) (rowId : String) : Bool :=
  match cursor with
  | none => true
  | some cp =>
    decide (cp.timestampMs < (ts : Int) ∨ (cp.timestampMs = (ts : Int) ∧ jsStrLt cp.id rowId = true))

/-- Lexicographic `(timestamp, id)` order underlying both the SQL
`ORDER BY created_at ASC, id ASC` and the in-memory comparator. -/
def rowKeyLe (t1 : Nat) (s1 : String) (t2 : Nat) (s2 : String) : Prop :=
  t1 < t2 ∨ (t1 = t2 ∧ jsStrLe s1 s2 = true)

instance (t1 : Nat) (s1 : String) (t2 : Nat) (s2 : String) :
    Decidable (rowKeyLe t1 s1 t2 s2) := by
  unfold rowKeyLe; infer_instance

/-- Order on `decisions` rows used by the SQL query. -/
def decRowLe (a b : DecisionRow) : Prop :=
  rowKeyLe a.created_at a.id b.created_at b.id

instance : DecidableRel decRowLe := fun a b => by unfold decRowLe; infer_instance

/-- Order on joined approval rows used by the SQL query. -/
def appRowLe (a b : JoinedApprovalRow) : Prop :=
  rowKeyLe a.created_at a.id b.created_at b.id

instance : DecidableRel appRowLe := fun a b => by unfold appRowLe; infer_instance

/-- Order on decision events implemented by the in-memory comparator
(timestamp difference, then id comparison). -/
def eventLe (a b : DecisionEvent) : Prop :=
  rowKeyLe a.timestamp a.id b.timestamp b.id

instance : DecidableRel eventLe := fun a b => by unfold eventLe; infer_instance

instance : IsTotal DecisionRow decRowLe := by
  constructor
  intro a b
  unfold decRowLe rowKeyLe
  rcases Nat.lt_trichotomy a.created_at b.created_at with h | h | h
  · exact Or.inl (Or.inl h)
  · rcases charListLe_total a.id.data b.id.data with h2 | h2
    · exact Or.inl (Or.inr ⟨h, h2⟩)
    · exact Or.inr (Or.inr ⟨h.symm, h2⟩)
  · exact Or.inr (Or.inl h)

instance : IsTrans DecisionRow decRowLe := by
  constructor
  intro a b c hab hbc
  unfold decRowLe rowKeyLe at *
  rcases hab with h1 | ⟨h1, h1'⟩ <;> rcases hbc with h2 | ⟨h2, h2'⟩
  · exact Or.inl (h1.trans h2)
  · exact Or.inl (h2 ▸ h1)
  · exact Or.inl (h1 ▸ h2)
  · exact Or.inr ⟨h1.trans h2, charListLe_trans _ _ _ h1' h2'⟩

instance : IsTotal JoinedApprovalRow appRowLe := by
  constructor
  intro a b
  unfold appRowLe rowKeyLe
  rcases Nat.lt_trichotomy a.created_at b.created_at with h | h | h
  · exact Or.inl (Or.inl h)
  · rcases charListLe_total a.id.data b.id.data with h2 | h2
    · exact Or.inl (Or.inr ⟨h, h2⟩)
    · exact Or.inr (Or.inr ⟨h.symm, h2⟩)
  · exact Or.inr (Or.inl h)

instance : IsTrans JoinedApprovalRow appRowLe := by
  constructor
  intro a b c hab hbc
  unfold appRowLe rowKeyLe at *
  rcases hab with h1 | ⟨h1, h1'⟩ <;> rcases hbc with h2 | ⟨h2, h2'⟩
  · exact Or.inl (h1.trans h2)
  · exact Or.inl (h2 ▸ h1)
  · exact Or.inl (h1 ▸ h2)
  · exact Or.inr ⟨h1.trans h2, charListLe_trans _ _ _ h1' h2'⟩

instance : IsTotal DecisionEvent eventLe := by
  constructor
  intro a b
  unfold eventLe rowKeyLe
  rcases Nat.lt_trichotomy a.timestamp b.timestamp with h | h | h
  · exact Or.inl (Or.inl h)
  · rcases charListLe_total a.id.data b.id.data with h2 | h2
    · exact Or.inl (Or.inr ⟨h, h2⟩)
    · exact Or.inr (Or.inr ⟨h.symm, h2⟩)
  · exact Or.inr (Or.inl h)

instance : IsTrans DecisionEvent eventLe := by
  constructor
  intro a b c hab hbc
  unfold eventLe rowKeyLe at *
  rcases hab with h1 | ⟨h1, h1'⟩ <;> rcases hbc with h2 | ⟨h2, h2'⟩
  · exact Or.inl (h1.trans h2)
  · exact Or.inl (h2 ▸ h1)
  · exact Or.inl (h1 ▸ h2)
  · exact Or.inr ⟨h1.trans h2, charListLe_trans _ _ _ h1' h2'⟩

/-- The decisions query: WHERE (cursor predicate), ORDER BY `(created_at, id)`
ascending, LIMIT `k`. Ordering is modelled by a stable sort, which agrees
with SQL whenever the `(created_at, id)` keys are distinct. -/
def decisionsQueryRows (D : List DecisionRow) (cursor : Option CursorParts) (k : Nat) :
    List DecisionRow :=
  (List.insertionSort decRowLe (D.filter (fun d => cursorKeep cursor d.created_at d.id))).take k

/-- The inner `JOIN decisions d ON d.id = a.decision_id` of the approvals
query: approvals without a matching decision produce no row. -/
def joinApprovals (A : List ApprovalRow) (D : List DecisionRow) : List JoinedApprovalRow :=
  A.filterMap (fun a =>
    (D.find? (fun d => d.id == a.decision_id)).map (fun d =>
      { id := a.id, decision_id := a.decision_id, approved := a.approved,
        reward := a.reward, confidence_adjustment := a.confidence_adjustment,
        created_at := a.created_at, objective := d.objective,
        recommendation := d.recommendation }))

/-- The `a.approved` filter built from the requested event types: a condition
is added only when exactly one of approved/rejected is requested. -/
def approvedCond (incA incR : Bool) (approved : Bool) : Bool :=
  if incA && !incR then approved
  else if incR && !incA then !approved
  else true

/-- The approvals query: join, WHERE (approved filter and cursor predicate),
ORDER BY `(a.created_at, a.id)` ascending, LIMIT `k`. -/
def approvalsQueryRows (A : List ApprovalRow) (D : List DecisionRow)
    (cursor : Option CursorParts) (k : Nat) (incA incR : Bool) : List JoinedApprovalRow :=
  (List.insertionSort appRowLe ((joinApprovals A D).filter
    (fun j => approvedCond incA incR j.approved && cursorKeep cursor j.created_at j.id))).take k

/-- Model of `mapApprovalToEventType`. -/
def mapApprovalToEventType (approved : Bool) : DecisionEventType :=
  if approved then .plan_approved else .plan_rejected

/-- Mapping of a decisions row to a `plan_created` event. -/
def toCreatedEvent (d : DecisionRow) : DecisionEvent :=
  { id := buildEventId (eventTypeStr .plan_created) d.id d.created_at
    type := .plan_created
    timestamp := d.created_at
    payload := { plan_id := some d.id, decision_id := some d.id,
                 objective := some d.objective, recommendation := some d.recommendation,
                 confidence := some d.confidence, command := some d.command,
                 checksum := some d.raw_output_hash } }

/-- Mapping of a joined approvals row to a `plan_approved`/`plan_rejected` event. -/
def toApprovalEvent (j : JoinedApprovalRow) : DecisionEvent :=
  let t := mapApprovalToEventType j.approved
  { id := buildEventId (eventTypeStr t) j.id j.created_at
    type := t
    timestamp := j.created_at
    payload := { plan_id := some j.decision_id, decision_id := some j.decision_id,
                 simulation_id := some j.decision_id, objective := some j.objective,
                 recommendation := some j.recommendation, reward := some j.reward,
                 confidence_adjustment := some j.confidence_adjustment,
                 reviewer_outcome := some (if j.approved then "approved" else "rejected") } }

/-- Model of `listDecisionEventsHandler`'s successful path: per-family queries,
event mapping, merge sort of the concatenation, trim to the page size, and the
continuation cursor taken from the last trimmed event. -/
def listDecisionEvents (D : List DecisionRow) (A : List ApprovalRow)
    (typesParam after limitParam : Option String) : DecisionEventsResponse :=
  let k := effLimit limitParam
  let et := parseEventTypes typesParam
  let cursor := cursorOf after
  let decEvents := if includesType et "plan_created"
    then (decisionsQueryRows D cursor k).map toCreatedEvent else []
  let incA := includesType et "plan_approved"
  let incR := includesType et "plan_rejected"
  let incDef := includesType et "plan_deferred"
  let appEvents := if incA || incR || incDef
    then (approvalsQueryRows A D cursor k incA incR).map toApprovalEvent else []
  let trimmed := (List.insertionSort eventLe (decEvents ++ appEvents)).take k
  { events := trimmed, next_cursor := trimmed.getLast?.map (fun e => e.id) }

/-- The HTTP response: status 200 with the body (the model has no failing
datastore, so the 500 branch is unreachable). -/
def listDecisionEventsHandler (D : List DecisionRow) (A : List ApprovalRow)
    (typesParam after limitParam : Option String) : Nat × DecisionEventsResponse :=
  (200, listDecisionEvents D A typesParam after limitParam)

/-- All events derivable from the two relations, before filtering and paging. -/
def allDecisionEvents (D : List DecisionRow) (A : List ApprovalRow) : List DecisionEvent :=
  D.map toCreatedEvent ++ (joinApprovals A D).map toApprovalEvent

/-- The full event stream in its served order. -/
def sortedAllEvents (D : List DecisionRow) (A : List ApprovalRow) : List DecisionEvent :=
  List.insertionSort eventLe (allDecisionEvents D A)

/-- Strict order of events by timestamp, used to state the ordering guarantee. -/
def eventTsLt (a b : DecisionEvent) : Prop :=
  a.timestamp < b.timestamp

instance : IsAntisymm DecisionEvent eventTsLt :=
  ⟨fun _ _ h1 h2 => absurd (Nat.lt_trans h1 h2) (Nat.lt_irrefl _)⟩

instance : IsTotal String (fun a b => jsStrLe a b = true) :=
  ⟨fun a b => charListLe_total a.data b.data⟩

instance : IsTrans String (fun a b => jsStrLe a b = true) :=
  ⟨fun a b c hab hbc => charListLe_trans a.data b.data c.data hab hbc⟩

instance : IsAntisymm String (fun a b => jsStrLe a b = true) :=
  ⟨fun a b hab hba => by
    have h := charListLe_antisymm a.data b.data hab hba
    calc a = String.mk a.data := rfl
      _ = String.mk b.data := by rw [h]
      _ = b := rfl⟩

/- ============================================================
   JSON values and the two inputs-hash canonicalizations
   Sources: computeInputsHash in
   src/src/handlers/learning/feedbackAssimilation.ts (array-replacer
   stringify) and in src/unnamed/part_001 (top-level key sort).
   ============================================================ -/

mutual

/-- A JSON value as built by the handlers (the inputs objects hold strings,
booleans, numbers and nested objects). -/
inductive JsonVal where
  | str (s : String)
  | num (q : ℚ)
  | bool (b : Bool)
  | obj (fields : JsonFields)

/-- Ordered fields of a JSON object (insertion order, as JavaScript keeps). -/
inductive JsonFields where
  | nil
  | cons (key : String) (v : JsonVal) (rest : JsonFields)

end

/-- Keys of an object in insertion order (`Object.keys`). -/
def JsonFields.keys : JsonFields → List String
  | .nil => []
  | .cons k _ rest => k :: keys rest

/-- Property access by name (first occurrence). -/
def JsonFields.lookupKey : JsonFields → String → Option JsonVal
  | .nil, _ => none
  | .cons k v rest, key => if k = key then some v else lookupKey rest key

/-- Build an object from an association list. -/
def JsonFields.ofList : List (String × JsonVal) → JsonFields
  | [] => .nil
  | (k, v) :: rest => .cons k v (ofList rest)

/-- Association list of an object's fields. -/
def JsonFields.toList : JsonFields → List (String × JsonVal)
  | .nil => []
  | .cons k v rest => (k, v) :: toList rest

/-- JSON string escaping (the characters relevant to the handlers' data). -/
def escapeChars : List Char → List Char
  | [] => []
  | c :: cs =>
    (if c = '"' then ['\\', '"']
     else if c = '\\' then ['\\', '\\']
     else if c = '\n' then ['\\', 'n']
     else if c = '\r' then ['\\', 'r']
     else if c = '\t' then ['\\', 't']
     else [c]) ++ escapeChars cs

/-- Least exponent e with den ∣ 10^e, searched with structural fuel.
Every float64 value has such an exponent (its denominator is a power of two). -/
def findPow10 : Nat → Nat → Nat → Option Nat
  | 0, _, _ => none
  | fuel + 1, den, e => if (10 : Nat) ^ e % den = 0 then some e else findPow10 fuel den (e + 1)

/-- Left-pad a digit string with zeros to a given width. -/
def padLeftZeros (s : List Char) (e : Nat) : List Char :=
  List.replicate (e - s.length) '0' ++ s

/-- JSON rendering of a number: integers in decimal; other float64 values by
their exact finite decimal expansion (minimal digits, as JavaScript prints
an exactly-decimal float). -/
def jsonNumString (q : ℚ) : String :=
  let sign := if q < 0 then "-" else ""
  let n := q.num.natAbs
  let d := q.den
  if d = 1 then sign ++ natToDecimal n
  else
    match findPow10 1101 d 0 with
    | none => sign ++ natToDecimal n ++ "/" ++ natToDecimal d
    | some e =>
      let scaled := n * 10 ^ e / d
      let ip := scaled / 10 ^ e
      let fp := scaled % 10 ^ e
      sign ++ natToDecimal ip ++ "." ++ String.mk (padLeftZeros (natToDecimal fp).data e)

mutual

/-- Model of `JSON.stringify` without a replacer (insertion order kept,
nested objects serialized recursively). -/
def jsonSerialize : JsonVal → String
  | .str s => "\"" ++ String.mk (escapeChars s.data) ++ "\""
  | .num q => jsonNumString q
  | .bool b => if b then "true" else "false"
  | .obj fields => "\x7b" ++ serializeFields fields ++ "\x7d"
termination_by structural v => v

/-- Field list rendering for `jsonSerialize`. -/
def serializeFields : JsonFields → String
  | .nil => ""
  | .cons k v rest =>
    "\"" ++ String.mk (escapeChars k.data) ++ "\":" ++ jsonSerialize v ++
      (match rest with | .nil => "" | .cons _ _ _ => ",") ++ serializeFields rest
termination_by structural f => f

end

/-- Is any of the keys present in the object? (controls the comma when
serializing with a property list). -/
def jsonFieldsAnyKey (fields : JsonFields) (ks : List String) : Bool :=
  ks.any (fun k => (fields.lookupKey k).isSome)

mutual

/-- Model of `JSON.stringify(v, propertyList)`: at every object, exactly the
properties named by the list are emitted, in list order (ECMA-262
SerializeJSONObject with a PropertyList). Structural fuel makes concrete
evaluation reduce in the kernel; the wrapper below supplies sufficient fuel. -/
def serializeWithList : Nat → List String → JsonVal → String
  | 0, _, _ => ""
  | _ + 1, _, .str s => "\"" ++ String.mk (escapeChars s.data) ++ "\""
  | _ + 1, _, .num q => jsonNumString q
  | _ + 1, _, .bool b => if b then "true" else "false"
  | fuel + 1, keys, .obj fields =>
    "\x7b" ++ serializeKeysWithList fuel keys keys fields ++ "\x7d"
termination_by structural fuel _ _ => fuel

/-- Emit the properties named by the remaining key list that are present. -/
def serializeKeysWithList : Nat → List String → List String → JsonFields → String
  | 0, _, _, _ => ""
  | _ + 1, _, [], _ => ""
  | fuel + 1, allKeys, k :: ks, fields =>
    match fields.lookupKey k with
    | none => serializeKeysWithList fuel allKeys ks fields
    | some v =>
      "\"" ++ String.mk (escapeChars k.data) ++ "\":" ++ serializeWithList fuel allKeys v ++
        (if jsonFieldsAnyKey fields ks then "," else "") ++
        serializeKeysWithList fuel allKeys ks fields
termination_by structural fuel _ _ _ => fuel

end

mutual

/-- Structural size bound used to pick serialization fuel. -/
def jsonSizeB : JsonVal → Nat
  | .str _ => 1
  | .num _ => 1
  | .bool _ => 1
  | .obj fields => 1 + fieldsSizeB fields
termination_by structural v => v

/-- Structural size bound for field lists. -/
def fieldsSizeB : JsonFields → Nat
  | .nil => 1
  | .cons _ v rest => 1 + jsonSizeB v + fieldsSizeB rest
termination_by structural f => f

end

/-- JavaScript default sort of a string array (code-unit lexicographic). -/
def sortStrings (l : List String) : List String :=
  List.insertionSort (fun a b => jsStrLe a b = true) l

/-- Canonical text of the feedback-handler hash:
`JSON.stringify(inputs, Object.keys(inputs).sort())` — the sorted top-level
key list acts as the property list at every nesting level. -/
def canonicalFeedback (o : JsonFields) : String :=
  let keys := sortStrings o.keys
  serializeWithList ((jsonSizeB (.obj o) + 1) * (keys.length + 2)) keys (.obj o)

/-- Rebuild an object with a given key order, taking values by lookup
(the `sortedKeys.reduce((acc, key) => acc[key] = inputs[key])` of the
approval handler). -/
def buildFieldsFromKeys (o : JsonFields) : List String → JsonFields
  | [] => .nil
  | k :: ks =>
    match o.lookupKey k with
    | none => buildFieldsFromKeys o ks
    | some v => .cons k v (buildFieldsFromKeys o ks)

/-- Canonical text of the approval-handler hash: top-level keys sorted, the
rebuilt object serialized with nested values untouched. -/
def canonicalApproval (o : JsonFields) : String :=
  jsonSerialize (.obj (buildFieldsFromKeys o (sortStrings o.keys)))

/- ============================================================
   SHA-256 (crypto createHash('sha256'), hex digest), executable
   with kernel-accelerated Nat operations.
   ============================================================ -/

/-- Truncation to a 32-bit word. -/
def w32 (n : Nat) : Nat := n % 4294967296

/-- 32-bit right rotation. -/
def rotr32 (x k : Nat) : Nat :=
  w32 (x / 2 ^ k + x % 2 ^ k * 2 ^ (32 - k))

/-- 32-bit logical right shift. -/
def shr32 (x k : Nat) : Nat := x / 2 ^ k

/-- 32-bit complement. -/
def bnot32 (x : Nat) : Nat := 4294967295 - w32 x

/-- SHA-256 Ch function. -/
def chFn (x y z : Nat) : Nat := Nat.xor (Nat.land x y) (Nat.land (bnot32 x) z)

/-- SHA-256 Maj function. -/
def majFn (x y z : Nat) : Nat :=
  Nat.xor (Nat.xor (Nat.land x y) (Nat.land x z)) (Nat.land y z)

/-- SHA-256 Σ0. -/
def bigSigma0 (x : Nat) : Nat := Nat.xor (Nat.xor (rotr32 x 2) (rotr32 x 13)) (rotr32 x 22)

/-- SHA-256 Σ1. -/
def bigSigma1 (x : Nat) : Nat := Nat.xor (Nat.xor (rotr32 x 6) (rotr32 x 11)) (rotr32 x 25)

/-- SHA-256 σ0. -/
def smallSigma0 (x : Nat) : Nat := Nat.xor (Nat.xor (rotr32 x 7) (rotr32 x 18)) (shr32 x 3)

/-- SHA-256 σ1. -/
def smallSigma1 (x : Nat) : Nat := Nat.xor (Nat.xor (rotr32 x 17) (rotr32 x 19)) (shr32 x 10)

/-- SHA-256 round constants. -/
def sha256K : List Nat :=
  [1116352408, 1899447441, 3049323471, 3921009573, 961987163,
   1508970993, 2453635748, 2870763221, 3624381080, 310598401,
   607225278, 1426881987, 1925078388, 2162078206, 2614888103,
   3248222580, 3835390401, 4022224774, 264347078, 604807628,
   770255983, 1249150122, 1555081692, 1996064986, 2554220882,
   2821834349, 2952996808, 3210313671, 3336571891, 3584528711,
   113926993, 338241895, 666307205, 773529912, 1294757372,
   1396182291, 1695183700, 1986661051, 2177026350, 2456956037,
   2730485921, 2820302411, 3259730800, 3345764771, 3516065817,
   3600352804, 4094571909, 275423344, 430227734, 506948616,
   659060556, 883997877, 958139571, 1322822218, 1537002063,
   1747873779, 1955562222, 2024104815, 2227730452, 2361852424,
   2428436474, 2756734187, 3204031479, 3329325298]

/-- Initial SHA-256 state. -/
def sha256H0 : Nat × Nat × Nat × Nat × Nat × Nat × Nat × Nat :=
  (1779033703, 3144134277, 1013904242, 2773480762,
   1359893119, 2600822924, 528734635, 1541459225)

/-- Message schedule extension: repeatedly append the next word. -/
def scheduleGo : Nat → List Nat → List Nat
  | 0, ws => ws
  | fuel + 1, ws =>
    let n := ws.length
    let next := w32 (smallSigma1 (ws.getD (n - 2) 0) + ws.getD (n - 7) 0 +
      smallSigma0 (ws.getD (n - 15) 0) + ws.getD (n - 16) 0)
    scheduleGo fuel (ws ++ [next])

/-- The 64 compression rounds, consuming the round constants and schedule. -/
def sha256Rounds : List Nat → List Nat →
    Nat × Nat × Nat × Nat × Nat × Nat × Nat × Nat →
    Nat × Nat × Nat × Nat × Nat × Nat × Nat × Nat
  | kc :: ks, w :: ws, (a, b, c, d, e, f, g, h) =>
    let t1 := w32 (h + bigSigma1 e + chFn e f g + kc + w)
    let t2 := w32 (bigSigma0 a + majFn a b c)
    sha256Rounds ks ws (w32 (t1 + t2), a, b, c, w32 (d + t1), e, f, g)
  | _, _, st => st

/-- Compression of one 16-word block into the running state. -/
def sha256Block (st : Nat × Nat × Nat × Nat × Nat × Nat × Nat × Nat) (block : List Nat) :
    Nat × Nat × Nat × Nat × Nat × Nat × Nat × Nat :=
  let ws := scheduleGo 48 block
  match st, sha256Rounds sha256K ws st with
  | (a0, b0, c0, d0, e0, f0, g0, h0), (a, b, c, d, e, f, g, h) =>
    (w32 (a0 + a), w32 (b0 + b), w32 (c0 + c), w32 (d0 + d),
     w32 (e0 + e), w32 (f0 + f), w32 (g0 + g), w32 (h0 + h))

/-- Big-endian bytes to 32-bit words. -/
def bytesToWords : List Nat → List Nat
  | b0 :: b1 :: b2 :: b3 :: rest =>
    (b0 * 16777216 + b1 * 65536 + b2 * 256 + b3) :: bytesToWords rest
  | _ => []

/-- Chunk a word list into 16-word blocks. -/
def wordsToBlocks : List Nat → List (List Nat)
  | w0 :: w1 :: w2 :: w3 :: w4 :: w5 :: w6 :: w7 :: w8 :: w9 ::
      w10 :: w11 :: w12 :: w13 :: w14 :: w15 :: rest =>
    [w0, w1, w2, w3, w4, w5, w6, w7, w8, w9, w10, w11, w12, w13, w14, w15] ::
      wordsToBlocks rest
  | _ => []

/-- 8-byte big-endian rendering of the bit length. -/
def be8 (n : Nat) : List Nat :=
  [n / 2 ^ 56 % 256, n / 2 ^ 48 % 256, n / 2 ^ 40 % 256, n / 2 ^ 32 % 256,
   n / 2 ^ 24 % 256, n / 2 ^ 16 % 256, n / 2 ^ 8 % 256, n % 256]

/-- SHA-256 padding: 0x80, zeros to 56 mod 64, then the 64-bit bit length. -/
def sha256Pad (msg : List Nat) : List Nat :=
  let L := msg.length
  msg ++ [128] ++ List.replicate ((119 - L % 64) % 64) 0 ++ be8 (L * 8)

/-- SHA-256 digest bytes of a byte message. -/
def sha256 (msg : List Nat) : List Nat :=
  let blocks := wordsToBlocks (bytesToWords (sha256Pad msg))
  match blocks.foldl sha256Block sha256H0 with
  | (a, b, c, d, e, f, g, h) =>
    [a, b, c, d, e, f, g, h].foldr (fun w acc =>
      w / 16777216 % 256 :: w / 65536 % 256 :: w / 256 % 256 :: w % 256 :: acc) []

/-- Lowercase hex digit. -/
def hexDigit : Nat → Char
  | 0 => '0' | 1 => '1' | 2 => '2' | 3 => '3' | 4 => '4' | 5 => '5' | 6 => '6' | 7 => '7'
  | 8 => '8' | 9 => '9' | 10 => 'a' | 11 => 'b' | 12 => 'c' | 13 => 'd' | 14 => 'e' | _ => 'f'

/-- Hex rendering of a byte. -/
def hexOfByte (b : Nat) : List Char := [hexDigit (b / 16), hexDigit (b % 16)]

/-- `createHash('sha256').update(s).digest('hex')` for the ASCII strings the
handlers hash (for which UTF-8 bytes coincide with the code points). -/
def sha256Hex (s : String) : String :=
  String.mk (((sha256 (s.data.map Char.toNat)).map hexOfByte).flatten)

/-- The feedback-handler `computeInputsHash`:
sha256 hex of `JSON.stringify(inputs, Object.keys(inputs).sort())`. -/
def computeInputsHashFeedback (inputs : List (String × JsonVal)) : String :=
  sha256Hex (canonicalFeedback (JsonFields.ofList inputs))

/-- The approval-handler `computeInputsHash`: sha256 hex of the JSON of the
object rebuilt with sorted top-level keys. -/
def computeInputsHashApproval (inputs : List (String × JsonVal)) : String :=
  sha256Hex (canonicalApproval (JsonFields.ofList inputs))

/- ============================================================
   Approval learning (src/unnamed/part_001: approvalLearning.ts)
   ============================================================ -/

/-- JavaScript `v || dflt` for an optional string (empty string is falsy). -/
def jsOrStr (v : Option String) (dflt : String) : String :=
  match v with
  | none => dflt
  | some s => if s = "" then dflt else s

/-- JavaScript `v || dflt` for an optional number (0 is falsy). -/
def jsOrNum (v : Option ℚ) (dflt : ℚ) : ℚ :=
  match v with
  | none => dflt
  | some q => if q = 0 then dflt else q

/-- JavaScript `!!v` for an optional string. -/
def jsTruthy (v : Option String) : Bool :=
  match v with
  | none => false
  | some s => !(s == "")

/-- A validated POST /learning/learn body (`createApprovalLearningSchema`). -/
structure ApprovalPayload where
  decision_id : Option String := none
  approved : Bool
  confidence_adjustment : Option ℚ := none
  reviewer_role : Option String := none
  review_scope : Option String := none
  artifact_type : Option String := none
  feedback : Option String := none
  timestamp : Option String := none
deriving DecidableEq

/-- Model of `normalizeApprovalSignal`: base ±1, optionally scaled by
`(1 + adjustment)` and clamped to [-1, 1]. -/
def normalizeApprovalSignal (approved : Bool) (confidence_adjustment : Option ℚ) : ℚ :=
  let baseSignal : ℚ := if approved then 1 else -1
  match confidence_adjustment with
  | some adj => max (-1) (min 1 (baseSignal * (1 + adj)))
  | none => baseSignal

/-- `reviewer_role && reviewer_role !== 'unknown'`. -/
def reviewerRoleKnown (r : Option String) : Bool :=
  match r with
  | none => false
  | some s => !(s == "") && !(s == "unknown")

/-- The handler's confidence: `abs(signal)`, `+0.1` capped at 1 when a source
decision was found, `+0.05` capped at 1 when the reviewer role is known. -/
def approvalConfidence (normalizedSignal : ℚ) (sourceFound roleKnown : Bool) : ℚ :=
  let c1 := |normalizedSignal|
  let c2 := if sourceFound then min 1 (c1 + 0.1) else c1
  if roleKnown then min 1 (c2 + 0.05) else c2

/-- The inputs object hashed for idempotency, with the handler's defaults;
`now` is the server time used when the payload has no timestamp. -/
def approvalInputs (p : ApprovalPayload) (now : String) : List (String × JsonVal) :=
  [("decision_id", .str (jsOrStr p.decision_id "none")),
   ("approved", .bool p.approved),
   ("confidence_adjustment", .num (jsOrNum p.confidence_adjustment 0)),
   ("reviewer_role", .str (jsOrStr p.reviewer_role "unknown")),
   ("review_scope", .str (jsOrStr p.review_scope "general")),
   ("artifact_type", .str (jsOrStr p.artifact_type "unknown")),
   ("timestamp", .str (jsOrStr p.timestamp now))]

/-- The fingerprint computed by the approval handler. -/
def approvalHash (p : ApprovalPayload) (now : String) : String :=
  computeInputsHashApproval (approvalInputs p now)

/-- `output` object of the approval handler. -/
structure ApprovalOutput where
  normalized_signal : ℚ
  signal_type : String
  signal_strength : ℚ
  feedback : Option String
  source_recommendation : Option String
  source_confidence : Option String
deriving DecidableEq

/-- `constraints_applied` object of the approval handler. -/
structure ApprovalConstraints where
  reviewer_role : String
  review_scope : String
  artifact_type : String
  has_source_context : Bool
  has_feedback : Bool
deriving DecidableEq

/-- One normalized feedback signal. -/
structure FeedbackSignal where
  dimension : String
  value : ℚ
  confidence : ℚ
deriving DecidableEq

/-- `processing_metadata` of the feedback outputs. -/
structure ProcessingMetadata where
  method : String
  dimensions_extracted : Nat
  feedback_length : Nat
deriving DecidableEq

/-- `outputs` object of the feedback handler. -/
structure FeedbackOutputs where
  normalized_signals : List FeedbackSignal
  feedback_summary : String
  processing_metadata : ProcessingMetadata
deriving DecidableEq

/-- `constraints_applied` object of the feedback handler. -/
structure FeedbackConstraints where
  feedback_source : String
  processing_method : String
deriving DecidableEq

/-- Stored `outputs` column (JSON of one of the two shapes). -/
inductive StoredOutputs where
  | approval (o : ApprovalOutput)
  | feedback (o : FeedbackOutputs)
deriving DecidableEq

/-- Stored `constraints_applied` column. -/
inductive StoredConstraints where
  | approval (c : ApprovalConstraints)
  | feedback (c : FeedbackConstraints)
deriving DecidableEq

/-- A row of the `learning_events` relation, with the columns the two
writers insert. -/
structure LearningEventRow where
  id : String
  agent_id : String
  agent_version : String
  decision_type : String
  source_id : Option String
  outputs : StoredOutputs
  inputs_hash : String
  confidence : ℚ
  constraints_applied : StoredConstraints
  source_type : String
  created_at : String
deriving DecidableEq

/-- Modelled from the spec: the learning_events schema is not under src/;
§4.4 requires "a uniqueness constraint on the fingerprint", which the
approval writer's `ON CONFLICT (inputs_hash) DO NOTHING` clause also
presupposes. An INSERT ... ON CONFLICT DO NOTHING therefore keeps the store
unchanged when a row with the same `inputs_hash` exists. -/
def insertOnConflictDoNothing (db : List LearningEventRow) (row : LearningEventRow) :
    List LearningEventRow :=
  if db.any (fun r => r.inputs_hash == row.inputs_hash) then db else db ++ [row]

/-- Modelled from the spec: a plain INSERT into learning_events fails with a
storage error when the uniqueness constraint on `inputs_hash` is violated
(the feedback writer's INSERT carries no ON CONFLICT clause). -/
def plainInsertUnique (db : List LearningEventRow) (row : LearningEventRow) :
    Except Unit (List LearningEventRow) :=
  if db.any (fun r => r.inputs_hash == row.inputs_hash) then .error () else .ok (db ++ [row])

/-- Response body of POST /learning/learn. -/
structure ApprovalLearningResponse where
  id : String
  decision_type : String
  normalized_signal : ℚ
  confidence : ℚ
  inputs_hash : String
  idempotent : Bool
  learning_applied : Bool
deriving DecidableEq

/-- Status, response body and post-state of one approval-learning request. -/
structure ApprovalHandlerResult where
  status : Nat
  resp : ApprovalLearningResponse
  db : List LearningEventRow
deriving DecidableEq

/-- The learning_events row built by the approval handler (the argument of
its INSERT). -/
def approvalRow (p : ApprovalPayload) (decisionsTable : List DecisionRow)
    (eventId : String) (now : String) : LearningEventRow :=
  let sourceDecision : Option DecisionRow := match p.decision_id with
    | none => none
    | some d => decisionsTable.find? (fun r => r.id == d)
  let normalizedSignal := normalizeApprovalSignal p.approved p.confidence_adjustment
  let inputsHash := approvalHash p now
  let output : ApprovalOutput :=
    { normalized_signal := normalizedSignal
      signal_type := if p.approved then "approval" else "rejection"
      signal_strength := |normalizedSignal|
      feedback := p.feedback
      source_recommendation := sourceDecision.map (fun d => d.recommendation)
      source_confidence := sourceDecision.map (fun d => d.confidence) }
  let confidence :=
    approvalConfidence normalizedSignal sourceDecision.isSome (reviewerRoleKnown p.reviewer_role)
  let constraintsApplied : ApprovalConstraints :=
    { reviewer_role := jsOrStr p.reviewer_role "unknown"
      review_scope := jsOrStr p.review_scope "general"
      artifact_type := jsOrStr p.artifact_type "unknown"
      has_source_context := sourceDecision.isSome
      has_feedback := jsTruthy p.feedback }
  { id := eventId, agent_id := "approval-learning-agent", agent_version := "1.0.0"
    decision_type := "approval_learning", source_id := p.decision_id
    outputs := .approval output, inputs_hash := inputsHash, confidence := confidence
    constraints_applied := .approval constraintsApplied, source_type := "approval_learning"
    created_at := jsOrStr p.timestamp now }

/-- Model of `createApprovalLearningHandler` on a validated payload:
source-decision lookup, signal normalization, fingerprint, append-only
ON-CONFLICT-DO-NOTHING insert, and the 201 response carrying the freshly
generated `eventId`. -/
def createApprovalLearningHandler (p : ApprovalPayload) (decisionsTable : List DecisionRow)
    (db : List LearningEventRow) (eventId : String) (now : String) : ApprovalHandlerResult :=
  let sourceDecision : Option DecisionRow := match p.decision_id with
    | none => none
    | some d => decisionsTable.find? (fun r => r.id == d)
  let normalizedSignal := normalizeApprovalSignal p.approved p.confidence_adjustment
  let inputsHash := approvalHash p now
  let output : ApprovalOutput :=
    { normalized_signal := normalizedSignal
      signal_type := if p.approved then "approval" else "rejection"
      signal_strength := |normalizedSignal|
      feedback := p.feedback
      source_recommendation := sourceDecision.map (fun d => d.recommendation)
      source_confidence := sourceDecision.map (fun d => d.confidence) }
  let confidence :=
    approvalConfidence normalizedSignal sourceDecision.isSome (reviewerRoleKnown p.reviewer_role)
  let constraintsApplied : ApprovalConstraints :=
    { reviewer_role := jsOrStr p.reviewer_role "unknown"
      review_scope := jsOrStr p.review_scope "general"
      artifact_type := jsOrStr p.artifact_type "unknown"
      has_source_context := sourceDecision.isSome
      has_feedback := jsTruthy p.feedback }
  let row : LearningEventRow :=
    { id := eventId, agent_id := "approval-learning-agent", agent_version := "1.0.0"
      decision_type := "approval_learning", source_id := p.decision_id
      outputs := .approval output, inputs_hash := inputsHash, confidence := confidence
      constraints_applied := .approval constraintsApplied, source_type := "approval_learning"
      created_at := jsOrStr p.timestamp now }
  { status := 201
    resp := { id := eventId, decision_type := "approval_learning"
              normalized_signal := normalizedSignal, confidence := confidence
              inputs_hash := inputsHash, idempotent := true, learning_applied := true }
    db := insertOnConflictDoNothing db row }

/- ============================================================
   Feedback assimilation normalizer and writer
   (src/src/handlers/learning/feedbackAssimilation.ts)
   ============================================================ -/

/-- The fixed positive keyword list. -/
def positiveKeywords : List String :=
  ["excellent", "great", "good", "clear", "accurate", "complete", "well-done"]

/-- The fixed negative keyword list. -/
def negativeKeywords : List String :=
  ["poor", "bad", "unclear", "inaccurate", "incomplete", "confusing", "missing"]

/-- Base sentiment per feedback type (the switch statement; unlisted types
keep the initial 0). -/
def baseSentiment (feedbackType : String) : ℚ :=
  if feedbackType = "approval" then 0.8
  else if feedbackType = "rejection" then -0.8
  else if feedbackType = "suggestion" then 0.3
  else if feedbackType = "critique" then -0.3
  else if feedbackType = "rating" then 0
  else 0

/-- Model of `deriveSentimentFromFeedbackType`: base sentiment adjusted by
0.2 per keyword-list hit difference, clamped to [-1, 1]. -/
def deriveSentimentFromFeedbackType (feedbackType rawFeedback : String) : ℚ :=
  let sentiment := baseSentiment feedbackType
  let lowerText := jsToLower rawFeedback
  let positiveCount := (positiveKeywords.filter (fun kw => containsSub lowerText kw)).length
  let negativeCount := (negativeKeywords.filter (fun kw => containsSub lowerText kw)).length
  let keywordAdjustment : ℚ := ((positiveCount : ℚ) - (negativeCount : ℚ)) * 0.2
  max (-1) (min 1 (sentiment + keywordAdjustment))

/-- Optional structured per-dimension ratings. -/
structure StructuredRatings where
  quality : Option ℚ := none
  clarity : Option ℚ := none
  accuracy : Option ℚ := none
  completeness : Option ℚ := none
deriving DecidableEq

/-- Model of `parseFeedbackDimensions`: explicit ratings at confidence 1.0
when provided; otherwise the derived sentiment replicated across the four
dimensions at confidence 0.6. -/
def parseFeedbackDimensions (rawFeedback feedbackType : String)
    (structuredRatings : Option StructuredRatings) : List FeedbackSignal :=
  let signals :=
    match structuredRatings with
    | none => []
    | some r =>
      (r.quality.map (fun v =>
        ({ dimension := "quality", value := v, confidence := 1 } : FeedbackSignal))).toList ++
      (r.clarity.map (fun v =>
        ({ dimension := "clarity", value := v, confidence := 1 } : FeedbackSignal))).toList ++
      (r.accuracy.map (fun v =>
        ({ dimension := "accuracy", value := v, confidence := 1 } : FeedbackSignal))).toList ++
      (r.completeness.map (fun v =>
        ({ dimension := "completeness", value := v, confidence := 1 } : FeedbackSignal))).toList
  if signals.length = 0 then
    let sentimentValue := deriveSentimentFromFeedbackType feedbackType rawFeedback
    [{ dimension := "quality", value := sentimentValue, confidence := 0.6 },
     { dimension := "clarity", value := sentimentValue, confidence := 0.6 },
     { dimension := "accuracy", value := sentimentValue, confidence := 0.6 },
     { dimension := "completeness", value := sentimentValue, confidence := 0.6 }]
  else signals

/-- The fields of a `FeedbackAssimilationEvent` consumed by the writer. -/
structure FeedbackAssimilationEvent where
  agent_id : String
  agent_version : String
  decision_type : String
  source_artifact_id : String
  inputs_hash : String
  outputs : FeedbackOutputs
  confidence : ℚ
  constraints_applied : FeedbackConstraints
deriving DecidableEq

/-- Model of the feedback `emitLearningEvent`: check-then-insert keyed on
`(inputs_hash, decision_type)` — a duplicate returns the existing row's id
and leaves the store unchanged; otherwise a plain INSERT stores the event
under the fresh id (`now` is the INSERT's `created_at`). -/
def emitLearningEvent (e : FeedbackAssimilationEvent) (db : List LearningEventRow)
    (freshId : String) (now : String) : Except Unit (String × List LearningEventRow) :=
  match db.find? (fun r => r.inputs_hash == e.inputs_hash && r.decision_type == e.decision_type) with
  | some r => .ok (r.id, db)
  | none =>
    let row : LearningEventRow :=
      { id := freshId, agent_id := e.agent_id, agent_version := e.agent_version
        decision_type := e.decision_type, source_id := some e.source_artifact_id
        outputs := .feedback e.outputs, inputs_hash := e.inputs_hash
        confidence := e.confidence, constraints_applied := .feedback e.constraints_applied
        source_type := "feedback_assimilation", created_at := now }
    (plainInsertUnique db row).map (fun db2 => (freshId, db2))

/- ============================================================
   Concrete instances used by the claim-level theorems
   ============================================================ -/

/-- Three creation rows (timestamps 10, 30, 50). -/
def c1Decisions : List DecisionRow :=
  [{ id := "d1", created_at := 10, objective := "o1", recommendation := "r1",
     confidence := "0.9", command := "c1", raw_output_hash := "h1" },
   { id := "d2", created_at := 30, objective := "o2", recommendation := "r2",
     confidence := "0.8", command := "c2", raw_output_hash := "h2" },
   { id := "d3", created_at := 50, objective := "o3", recommendation := "r3",
     confidence := "0.7", command := "c3", raw_output_hash := "h3" }]

/-- Two approval rows (timestamps 20, 40) referencing the creation rows. -/
def c1Approvals : List ApprovalRow :=
  [{ id := "a1", decision_id := "d1", approved := true, reward := 1,
     confidence_adjustment := none, created_at := 20 },
   { id := "a2", decision_id := "d2", approved := false, reward := 0,
     confidence_adjustment := none, created_at := 40 }]

/-- A single creation row for the filter-leak scenario. -/
def c10Decisions : List DecisionRow :=
  [{ id := "e1", created_at := 5, objective := "obj", recommendation := "rec",
     confidence := "0.5", command := "cmd", raw_output_hash := "hash" }]

/-- One approved and one rejected row for the filter-leak scenario. -/
def c10Approvals : List ApprovalRow :=
  [{ id := "b1", decision_id := "e1", approved := true, reward := 2,
     confidence_adjustment := none, created_at := 6 },
   { id := "b2", decision_id := "e1", approved := false, reward := 0,
     confidence_adjustment := none, created_at := 7 }]

/-- An approval payload with no explicit timestamp. -/
def cexPayloadNoTs : ApprovalPayload := { approved := true }

/-- An approval payload with an explicit timestamp. -/
def cexPayloadTs : ApprovalPayload := { approved := true, timestamp := some "2024-01-01T00:00:00.000Z" }

/-- A stored feedback-assimilation row (id "old") used for the duplicate
lookup scenario. -/
def c3Row : LearningEventRow :=
  { id := "old", agent_id := "feedback-agent", agent_version := "1.0.0"
    decision_type := "dt", source_id := some "art"
    outputs := .feedback { normalized_signals := [], feedback_summary := "s"
                           processing_metadata := { method := "m", dimensions_extracted := 0,
                                                    feedback_length := 1 } }
    inputs_hash := "H", confidence := 1
    constraints_applied := .feedback { feedback_source := "fs", processing_method := "pm" }
    source_type := "feedback_assimilation", created_at := "c" }

/-- A feedback event whose fingerprint and decision type match `c3Row`. -/
def c3Event : FeedbackAssimilationEvent :=
  { agent_id := "feedback-agent", agent_version := "1.0.0", decision_type := "dt"
    source_artifact_id := "art", inputs_hash := "H"
    outputs := { normalized_signals := [], feedback_summary := "s"
                 processing_metadata := { method := "m", dimensions_extracted := 0,
                                          feedback_length := 1 } }
    confidence := 1
    constraints_applied := { feedback_source := "fs", processing_method := "pm" } }

/-- An inputs object with a nested sub-object (nested value "1"). -/
def c4Nested1 : List (String × JsonVal) :=
  [("a", .obj (.cons "x" (.str "1") .nil)), ("b", .str "2")]

/-- The same object except for the nested value ("99" instead of "1"). -/
def c4Nested2 : List (String × JsonVal) :=
  [("a", .obj (.cons "x" (.str "99") .nil)), ("b", .str "2")]

/-- A flat two-field object. -/
def c4Flat1 : List (String × JsonVal) :=
  [("b", .str "v1"), ("a", .num 3)]

/-- The same object with the properties in the other insertion order. -/
def c4Flat2 : List (String × JsonVal) :=
  [("a", .num 3), ("b", .str "v1")]

/-- No two rows of the store share a fingerprint (the uniqueness invariant). -/
def hashesNodup (db : List LearningEventRow) : Prop :=
  List.Pairwise (fun r1 r2 => r1.inputs_hash ≠ r2.inputs_hash) db

/-- The response built from a trimmed page, as `listDecisionEvents` does. -/
def pageResponse (trimmed : List DecisionEvent) : DecisionEventsResponse :=
  { events := trimmed, next_cursor := trimmed.getLast?.map (fun e => e.id) }

/-- The page computed when no type filter is requested. -/
def noFilterPage (D : List DecisionRow) (A : List ApprovalRow)
    (cursor : Option CursorParts) (k : Nat) : List DecisionEvent :=
  (List.insertionSort eventLe
    ((decisionsQueryRows D cursor k).map toCreatedEvent ++
     (approvalsQueryRows A D cursor k true true).map toApprovalEvent)).take k

/-- Timestamp-threshold filter: what the cursor predicate amounts to when all
timestamps are pairwise distinct. -/
def tsKeep (c : Option Nat) (ts : Nat) : Bool :=
  match c with
  | none => true
  | some t => decide (t < ts)

/- ============================================================
   Lemmas about the string primitives
   ============================================================ -/

theorem string_mk_data (s : String) : String.mk s.data = s := rfl

theorem splitByChar_ne_nil (sep : Char) : ∀ l : List Char, splitByChar sep l ≠ [] := by
  intro l
  cases l with
  | nil => simp [splitByChar]
  | cons c cs =>
    simp only [splitByChar]
    cases h : splitByChar sep cs with
    | nil => simp
    | cons t ts => by_cases hc : c = sep <;> simp [hc]

theorem splitByChar_no_sep (sep : Char) : ∀ l : List Char, sep ∉ l → splitByChar sep l = [l] := by
  intro l
  induction l with
  | nil => intro _; rfl
  | cons c cs ih =>
    intro h
    have hc : c ≠ sep := fun hh => h (hh ▸ List.mem_cons_self c cs)
    have hcs : sep ∉ cs := fun hh => h (List.mem_cons_of_mem _ hh)
    simp only [splitByChar, ih hcs]
    simp [hc]

theorem splitByChar_left (sep : Char) (y : List Char) :
    ∀ x : List Char, sep ∉ x → splitByChar sep (x ++ sep :: y) = x :: splitByChar sep y := by
  intro x
  induction x with
  | nil =>
    intro _
    simp only [List.nil_append, splitByChar]
    cases h : splitByChar sep y with
    | nil => exact absurd h (splitByChar_ne_nil sep y)
    | cons t ts => simp
  | cons c x' ih =>
    intro h
    have hc : c ≠ sep := fun hh => h (hh ▸ List.mem_cons_self c x')
    have hx' : sep ∉ x' := fun hh => h (List.mem_cons_of_mem _ hh)
    simp only [List.cons_append, splitByChar, List.append_eq]
    rw [ih hx']
    simp [hc]

theorem splitByChar_right (sep : Char) (y : List Char) (hy : sep ∉ y) :
    ∀ x : List Char, splitByChar sep (x ++ sep :: y) = splitByChar sep x ++ [y] := by
  intro x
  induction x with
  | nil =>
    simp only [List.nil_append, splitByChar, splitByChar_no_sep sep y hy]
    simp
  | cons c x' ih =>
    simp only [List.cons_append, splitByChar, List.append_eq]
    rw [ih]
    cases hsp : splitByChar sep x' with
    | nil => exact absurd hsp (splitByChar_ne_nil sep x')
    | cons t ts => by_cases hc : c = sep <;> simp [hc]

theorem joinByChar_splitByChar (sep : Char) : ∀ l : List Char,
    joinByChar sep (splitByChar sep l) = l := by
  intro l
  induction l with
  | nil => rfl
  | cons c cs ih =>
    simp only [splitByChar]
    cases h : splitByChar sep cs with
    | nil => exact absurd h (splitByChar_ne_nil sep cs)
    | cons t ts =>
      rw [h] at ih
      by_cases hc : c = sep
      · subst hc
        simp only [if_pos rfl, joinByChar]
        rw [ih]
        rfl
      · simp only [if_neg hc]
        cases ts with
        | nil =>
          simp only [joinByChar] at ih ⊢
          rw [ih]
        | cons u us =>
          simp only [joinByChar] at ih ⊢
          rw [List.cons_append, ih]

theorem digitChar_isDigit : ∀ d : Nat, d < 10 → isDigitChar (digitChar d) = true := by decide

theorem digitChar_toNat : ∀ d : Nat, d < 10 → (digitChar d).toNat - 48 = d := by decide

theorem natToDecimalGo_digits : ∀ fuel n : Nat, ∀ c ∈ natToDecimalGo fuel n,
    isDigitChar c = true := by
  intro fuel
  induction fuel with
  | zero => intro n c hc; simp [natToDecimalGo] at hc
  | succ fuel ih =>
    intro n c hc
    simp only [natToDecimalGo] at hc
    by_cases hn : n = 0
    · simp [hn] at hc
    · rw [if_neg hn] at hc
      rcases List.mem_append.mp hc with h | h
      · exact ih _ c h
      · rcases List.mem_singleton.mp h with rfl
        exact digitChar_isDigit _ (Nat.mod_lt _ (by omega))

theorem digitsVal_natToDecimalGo : ∀ fuel n : Nat, n ≤ fuel →
    digitsVal (natToDecimalGo fuel n) = n := by
  intro fuel
  induction fuel with
  | zero =>
    intro n h
    have : n = 0 := by omega
    subst this; rfl
  | succ fuel ih =>
    intro n h
    by_cases hn : n = 0
    · subst hn; rfl
    · simp only [natToDecimalGo, if_neg hn]
      unfold digitsVal
      rw [List.foldl_append]
      simp only [List.foldl_cons, List.foldl_nil]
      have h1 : n / 10 ≤ fuel := by omega
      have h2 := ih (n / 10) h1
      unfold digitsVal at h2
      rw [h2, digitChar_toNat _ (Nat.mod_lt _ (by omega))]
      omega

theorem natToDecimalGo_ne_nil (fuel n : Nat) (hn : n ≠ 0) : natToDecimalGo (fuel + 1) n ≠ [] := by
  simp [natToDecimalGo, hn]

theorem natToDecimal_digits (n : Nat) : ∀ c ∈ (natToDecimal n).data, isDigitChar c = true := by
  intro c hc
  unfold natToDecimal at hc
  by_cases hn : n = 0
  · rw [if_pos hn] at hc
    have : c = '0' := by simpa using hc
    subst this; decide
  · rw [if_neg hn] at hc
    exact natToDecimalGo_digits n n c hc

theorem isDigit_not_ws (c : Char) (h : isDigitChar c = true) : jsWhitespace c = false := by
  by_contra hw
  have hw2 : jsWhitespace c = true := by
    cases hww : jsWhitespace c
    · exact absurd hww hw
    · rfl
  unfold jsWhitespace at hw2
  simp only [Bool.or_eq_true, decide_eq_true_eq] at hw2
  rcases hw2 with ((rfl | rfl) | rfl) | rfl <;> exact absurd h (by decide)

theorem isDigit_ne_minus (c : Char) (h : isDigitChar c = true) : c ≠ '-' :=
  fun hh => absurd (hh ▸ h) (by decide)

theorem isDigit_ne_plus (c : Char) (h : isDigitChar c = true) : c ≠ '+' :=
  fun hh => absurd (hh ▸ h) (by decide)

theorem isDigit_ne_colon (c : Char) (h : isDigitChar c = true) : c ≠ ':' :=
  fun hh => absurd (hh ▸ h) (by decide)

theorem takeWhile_eq_self_of_all {α : Type} (p : α → Bool) : ∀ l : List α,
    (∀ c ∈ l, p c = true) → l.takeWhile p = l := by
  intro l
  induction l with
  | nil => intro _; rfl
  | cons c cs ih =>
    intro h
    rw [List.takeWhile_cons, if_pos (h c (List.mem_cons_self c cs))]
    rw [ih (fun x hx => h x (List.mem_cons_of_mem _ hx))]

theorem jsParseInt_natToDecimal (n : Nat) : jsParseInt (natToDecimal n) = some (n : Int) := by
  by_cases hn : n = 0
  · subst hn; decide
  · have hdata : (natToDecimal n).data = natToDecimalGo n n := by
      unfold natToDecimal; rw [if_neg hn]
    obtain ⟨c, rest, hcr⟩ : ∃ c rest, natToDecimalGo n n = c :: rest := by
      obtain ⟨m, rfl⟩ := Nat.exists_eq_succ_of_ne_zero hn
      cases hgo : natToDecimalGo (m + 1) (m + 1) with
      | nil => exact absurd hgo (natToDecimalGo_ne_nil m (m + 1) (by omega))
      | cons c rest => exact ⟨c, rest, rfl⟩
    have hdig : ∀ ch ∈ c :: rest, isDigitChar ch = true := by
      rw [← hcr]; exact natToDecimalGo_digits n n
    have hc := hdig c (List.mem_cons_self _ _)
    have hdw : (natToDecimal n).data.dropWhile jsWhitespace = c :: rest := by
      rw [hdata, hcr, List.dropWhile_cons, if_neg (by rw [isDigit_not_ws c hc]; simp)]
    unfold jsParseInt
    rw [hdw]
    simp only [if_neg (isDigit_ne_minus c hc), if_neg (isDigit_ne_plus c hc)]
    unfold parseDigits
    rw [takeWhile_eq_self_of_all _ _ hdig]
    simp only [if_neg (List.cons_ne_nil c rest)]
    rw [← hcr, digitsVal_natToDecimalGo n n le_rfl]
    rfl

theorem natToDecimal_no_colon (ts : Nat) : ':' ∉ (natToDecimal ts).data :=
  fun hmem => isDigit_ne_colon _ (natToDecimal_digits ts _ hmem) rfl

theorem buildEventId_data (ty rowId : String) (ts : Nat) :
    (buildEventId ty rowId ts).data =
      ty.data ++ ':' :: (rowId.data ++ ':' :: (natToDecimal ts).data) := by
  simp [buildEventId, String.data_append]

theorem parseCursor_buildEventId (ty rowId : String) (ts : Nat) (hty : ':' ∉ ty.data) :
    parseCursor (buildEventId ty rowId ts) = some ⟨ty, rowId, (ts : Int)⟩ := by
  have hsplit : splitByChar ':' (buildEventId ty rowId ts).data =
      ty.data :: (splitByChar ':' rowId.data ++ [(natToDecimal ts).data]) := by
    rw [buildEventId_data, splitByChar_left _ _ _ hty,
      splitByChar_right _ _ (natToDecimal_no_colon ts)]
  have hmk : ∀ s : String, String.mk s.data = s := fun _ => rfl
  have hparts : jsSplit (buildEventId ty rowId ts) ':' =
      ty :: ((splitByChar ':' rowId.data).map String.mk ++ [natToDecimal ts]) := by
    unfold jsSplit
    rw [hsplit]
    simp [hmk]
  obtain ⟨q, qs, hq⟩ : ∃ q qs, splitByChar ':' rowId.data = q :: qs := by
    cases hsp : splitByChar ':' rowId.data with
    | nil => exact absurd hsp (splitByChar_ne_nil ':' rowId.data)
    | cons q qs => exact ⟨q, qs, rfl⟩
  unfold parseCursor
  rw [hparts, hq]
  have hlen : ¬ (ty :: ((q :: qs).map String.mk ++ [natToDecimal ts])).length < 3 := by
    simp
  rw [if_neg hlen]
  have hlast : (ty :: ((q :: qs).map String.mk ++ [natToDecimal ts])).getLast? =
      some (natToDecimal ts) := by
    rw [show ty :: ((q :: qs).map String.mk ++ [natToDecimal ts]) =
      (ty :: (q :: qs).map String.mk) ++ [natToDecimal ts] by simp]
    exact List.getLast?_concat _
  rw [hlast]
  rw [Option.some_bind, jsParseInt_natToDecimal, Option.map_some']
  have hdroplast : ((ty :: ((q :: qs).map String.mk ++ [natToDecimal ts])).drop 1).dropLast =
      (q :: qs).map String.mk := by
    show ((q :: qs).map String.mk ++ [natToDecimal ts]).dropLast = (q :: qs).map String.mk
    exact List.dropLast_concat
  have hjoin : joinColon ((q :: qs).map String.mk) = rowId := by
    unfold joinColon
    have hmaps : ((q :: qs).map String.mk).map String.data = q :: qs := by
      rw [List.map_map]
      have : (String.data ∘ String.mk) = id := rfl
      rw [this, List.map_id]
    rw [hmaps, ← hq, joinByChar_splitByChar]
  simp only [hdroplast, hjoin, List.headD_cons]

theorem buildEventId_ne_empty (ty rowId : String) (ts : Nat) (hty : ty.data ≠ []) :
    buildEventId ty rowId ts ≠ "" := by
  intro h
  have h2 : (buildEventId ty rowId ts).data = [] := by rw [h]
  rw [buildEventId_data] at h2
  rcases List.append_eq_nil.mp h2 with ⟨h3, _⟩
  exact hty h3

/- ============================================================
   Strictly key-sorted lists: rank characterization of pages and
   the two-source merge identity behind the pagination endpoint
   ============================================================ -/

section SortMachinery

variable {α : Type} (key : α → Nat)

theorem pairwise_keyLt_of_sorted (le : α → α → Prop)
    (hkey : ∀ a b, le a b → key a ≤ key b) (M : List α)
    (hs : List.Pairwise le M) (hnd : (M.map key).Nodup) :
    List.Pairwise (fun a b => key a < key b) M := by
  have h1 : List.Pairwise (fun a b : α => key a ≠ key b) M := List.pairwise_map.mp hnd
  exact (hs.and h1).imp (fun hab => Nat.lt_of_le_of_ne (hkey _ _ hab.1) hab.2)

theorem mem_take_iff_rank :
    ∀ M : List α, List.Pairwise (fun a b => key a < key b) M → ∀ (k : Nat) (x : α),
      (x ∈ M.take k ↔ x ∈ M ∧ M.countP (fun y => decide (key y < key x)) < k) := by
  intro M
  induction M with
  | nil => intro _ k x; simp
  | cons h t ih =>
    intro hp k x
    have hpt := hp.of_cons
    cases k with
    | zero => simp
    | succ k =>
      rw [List.take_succ_cons]
      by_cases hx : x = h
      · subst hx
        have hz : List.countP (fun y => decide (key y < key x)) (x :: t) = 0 := by
          rw [List.countP_eq_zero]
          intro a ha
          rcases List.mem_cons.mp ha with rfl | ha2
          · simp
          · have := List.rel_of_pairwise_cons hp ha2
            simp only [decide_eq_true_eq]
            omega
        constructor
        · intro _
          exact ⟨List.mem_cons_self _ _, by rw [hz]; omega⟩
        · intro _
          exact List.mem_cons_self _ _
      · constructor
        · intro hmem
          rcases List.mem_cons.mp hmem with rfl | hmem2
          · exact absurd rfl hx
          · obtain ⟨hmt, hrk⟩ := (ih hpt k x).mp hmem2
            have hkx : key h < key x := List.rel_of_pairwise_cons hp hmt
            refine ⟨List.mem_cons_of_mem _ hmt, ?_⟩
            rw [List.countP_cons]
            simp only [decide_eq_true_eq, hkx, if_true]
            omega
        · rintro ⟨hmem, hrk⟩
          rcases List.mem_cons.mp hmem with rfl | hmt
          · exact absurd rfl hx
          · have hkx : key h < key x := List.rel_of_pairwise_cons hp hmt
            rw [List.countP_cons] at hrk
            simp only [decide_eq_true_eq, hkx, if_true] at hrk
            exact List.mem_cons_of_mem _ ((ih hpt k x).mpr ⟨hmt, by omega⟩)

theorem strictSorted_ext :
    ∀ L1 L2 : List α, List.Pairwise (fun a b => key a < key b) L1 →
      List.Pairwise (fun a b => key a < key b) L2 →
      (∀ x, x ∈ L1 ↔ x ∈ L2) → L1 = L2 := by
  intro L1
  induction L1 with
  | nil =>
    intro L2 _ _ hiff
    cases L2 with
    | nil => rfl
    | cons h2 t2 => exact absurd ((hiff h2).mpr (List.mem_cons_self _ _)) (List.not_mem_nil h2)
  | cons h1 t1 ih =>
    intro L2 hp1 hp2 hiff
    cases L2 with
    | nil => exact absurd ((hiff h1).mp (List.mem_cons_self _ _)) (List.not_mem_nil h1)
    | cons h2 t2 =>
      have hh : h1 = h2 := by
        by_contra hne
        have h1mem : h1 ∈ h2 :: t2 := (hiff h1).mp (List.mem_cons_self _ _)
        have h1t2 : h1 ∈ t2 := by
          rcases List.mem_cons.mp h1mem with h | h
          · exact absurd h hne
          · exact h
        have h2mem : h2 ∈ h1 :: t1 := (hiff h2).mpr (List.mem_cons_self _ _)
        have h2t1 : h2 ∈ t1 := by
          rcases List.mem_cons.mp h2mem with h | h
          · exact absurd h.symm hne
          · exact h
        have k1 : key h1 < key h2 := List.rel_of_pairwise_cons hp1 h2t1
        have k2 : key h2 < key h1 := List.rel_of_pairwise_cons hp2 h1t2
        omega
      subst hh
      have htiff : ∀ x, x ∈ t1 ↔ x ∈ t2 := by
        intro x
        constructor
        · intro hx
          have hlt := List.rel_of_pairwise_cons hp1 hx
          rcases List.mem_cons.mp ((hiff x).mp (List.mem_cons_of_mem _ hx)) with rfl | h
          · omega
          · exact h
        · intro hx
          have hlt := List.rel_of_pairwise_cons hp2 hx
          rcases List.mem_cons.mp ((hiff x).mpr (List.mem_cons_of_mem _ hx)) with rfl | h
          · omega
          · exact h
      rw [ih t2 hp1.of_cons hp2.of_cons htiff]

theorem countP_take_sorted (c : Nat) :
    ∀ M : List α, List.Pairwise (fun a b => key a < key b) M → ∀ k : Nat,
      (M.take k).countP (fun y => decide (key y < c)) =
        min (M.countP (fun y => decide (key y < c))) k := by
  intro M
  induction M with
  | nil => intro _ k; simp
  | cons h t ih =>
    intro hp k
    cases k with
    | zero => simp
    | succ k =>
      rw [List.take_succ_cons, List.countP_cons, List.countP_cons]
      by_cases hc : key h < c
      · simp only [decide_eq_true_eq, hc, if_true]
        rw [ih hp.of_cons k]
        omega
      · simp only [decide_eq_true_eq, hc, if_false]
        have ht0 : t.countP (fun y => decide (key y < c)) = 0 := by
          rw [List.countP_eq_zero]
          intro a ha
          have := List.rel_of_pairwise_cons hp ha
          simp only [decide_eq_true_eq]
          omega
        have htk0 : (t.take k).countP (fun y => decide (key y < c)) = 0 := by
          rw [List.countP_eq_zero]
          intro a ha
          have := List.rel_of_pairwise_cons hp (List.mem_of_mem_take ha)
          simp only [decide_eq_true_eq]
          omega
        rw [ht0, htk0]
        omega

theorem take_sort_merge (le : α → α → Prop) [DecidableRel le] [IsTotal α le] [IsTrans α le]
    (hkey : ∀ a b, le a b → key a ≤ key b)
    (X Y : List α) (k : Nat) (hnd : ((X ++ Y).map key).Nodup) :
    (List.insertionSort le
        ((List.insertionSort le X).take k ++ (List.insertionSort le Y).take k)).take k =
      (List.insertionSort le (X ++ Y)).take k := by
  have hnd' := hnd
  rw [List.map_append] at hnd
  obtain ⟨hndX, hndY, _⟩ := List.nodup_append.mp hnd
  have hpX : (List.insertionSort le X).Perm X := List.perm_insertionSort le X
  have hpY : (List.insertionSort le Y).Perm Y := List.perm_insertionSort le Y
  have hpSU : (List.insertionSort le (X ++ Y)).Perm (X ++ Y) := List.perm_insertionSort le _
  have hpM : (List.insertionSort le
      ((List.insertionSort le X).take k ++ (List.insertionSort le Y).take k)).Perm
      ((List.insertionSort le X).take k ++ (List.insertionSort le Y).take k) :=
    List.perm_insertionSort le _
  have hndsX : ((List.insertionSort le X).map key).Nodup := ((hpX.map key).nodup_iff).mpr hndX
  have hndsY : ((List.insertionSort le Y).map key).Nodup := ((hpY.map key).nodup_iff).mpr hndY
  have hpairX : List.Pairwise (fun a b => key a < key b) (List.insertionSort le X) :=
    pairwise_keyLt_of_sorted key le hkey _ (List.sorted_insertionSort le X) hndsX
  have hpairY : List.Pairwise (fun a b => key a < key b) (List.insertionSort le Y) :=
    pairwise_keyLt_of_sorted key le hkey _ (List.sorted_insertionSort le Y) hndsY
  have hpairSU : List.Pairwise (fun a b => key a < key b) (List.insertionSort le (X ++ Y)) :=
    pairwise_keyLt_of_sorted key le hkey _ (List.sorted_insertionSort le _)
      (((hpSU.map key).nodup_iff).mpr hnd')
  have hndT : ((((List.insertionSort le X).take k) ++
      ((List.insertionSort le Y).take k)).map key).Nodup := by
    have ha : List.Sublist (((List.insertionSort le X).take k).map key)
        ((List.insertionSort le X).map key) := by
      rw [List.map_take]; exact List.take_sublist _ _
    have hb : List.Sublist (((List.insertionSort le Y).take k).map key)
        ((List.insertionSort le Y).map key) := by
      rw [List.map_take]; exact List.take_sublist _ _
    have h2 : ((List.insertionSort le X).map key ++ (List.insertionSort le Y).map key).Nodup := by
      have hper : ((List.insertionSort le X).map key ++ (List.insertionSort le Y).map key).Perm
          (X.map key ++ Y.map key) := (hpX.map key).append (hpY.map key)
      exact (hper.nodup_iff).mpr (by rw [← List.map_append]; exact hnd')
    rw [List.map_append]
    exact List.Nodup.sublist (ha.append hb) h2
  have hpairM : List.Pairwise (fun a b => key a < key b)
      (List.insertionSort le ((List.insertionSort le X).take k ++
        (List.insertionSort le Y).take k)) :=
    pairwise_keyLt_of_sorted key le hkey _ (List.sorted_insertionSort le _)
      (((hpM.map key).nodup_iff).mpr hndT)
  refine strictSorted_ext key _ _ (List.Pairwise.sublist (List.take_sublist _ _) hpairM)
    (List.Pairwise.sublist (List.take_sublist _ _) hpairSU) ?_
  intro x
  rw [mem_take_iff_rank key _ hpairM k x, mem_take_iff_rank key _ hpairSU k x]
  rw [hpM.mem_iff, hpSU.mem_iff, hpM.countP_eq, hpSU.countP_eq]
  rw [List.countP_append, List.countP_append]
  rw [countP_take_sorted key (key x) _ hpairX k, countP_take_sorted key (key x) _ hpairY k]
  rw [hpX.countP_eq, hpY.countP_eq]
  constructor
  · rintro ⟨hxT, hrank⟩
    refine ⟨?_, by omega⟩
    rcases List.mem_append.mp hxT with h | h
    · exact List.mem_append.mpr (Or.inl (hpX.subset (List.mem_of_mem_take h)))
    · exact List.mem_append.mpr (Or.inr (hpY.subset (List.mem_of_mem_take h)))
  · rintro ⟨hxU, hrank⟩
    refine ⟨?_, by omega⟩
    rcases List.mem_append.mp hxU with h | h
    · refine List.mem_append.mpr (Or.inl ?_)
      rw [mem_take_iff_rank key _ hpairX k x]
      refine ⟨hpX.mem_iff.mpr h, ?_⟩
      rw [hpX.countP_eq]
      omega
    · refine List.mem_append.mpr (Or.inr ?_)
      rw [mem_take_iff_rank key _ hpairY k x]
      refine ⟨hpY.mem_iff.mpr h, ?_⟩
      rw [hpY.countP_eq]
      omega

end SortMachinery

/- ============================================================
   Decision-events handler: structural lemmas
   ============================================================ -/

theorem eventLe_ts_le : ∀ a b : DecisionEvent, eventLe a b → a.timestamp ≤ b.timestamp := by
  intro a b h
  simp only [eventLe, rowKeyLe] at h
  rcases h with h | ⟨h, _⟩ <;> omega

theorem decRowLe_ts_le : ∀ a b : DecisionRow, decRowLe a b → a.created_at ≤ b.created_at := by
  intro a b h
  simp only [decRowLe, rowKeyLe] at h
  rcases h with h | ⟨h, _⟩ <;> omega

theorem appRowLe_ts_le : ∀ a b : JoinedApprovalRow, appRowLe a b → a.created_at ≤ b.created_at := by
  intro a b h
  simp only [appRowLe, rowKeyLe] at h
  rcases h with h | ⟨h, _⟩ <;> omega

theorem listDecisionEvents_types_none (D : List DecisionRow) (A : List ApprovalRow)
    (after lim : Option String) :
    listDecisionEvents D A none after lim =
      pageResponse (noFilterPage D A (cursorOf after) (effLimit lim)) := rfl

theorem mapToCreated_sort (D : List DecisionRow)
    (hnd : (D.map (fun d => d.created_at)).Nodup) :
    (List.insertionSort decRowLe D).map toCreatedEvent =
      List.insertionSort eventLe (D.map toCreatedEvent) := by
  have hnds : ((List.insertionSort decRowLe D).map (fun d => d.created_at)).Nodup :=
    (((List.perm_insertionSort decRowLe D).map _).nodup_iff).mpr hnd
  have hrow : List.Pairwise (fun a b : DecisionRow => a.created_at < b.created_at)
      (List.insertionSort decRowLe D) :=
    pairwise_keyLt_of_sorted (fun d => d.created_at) decRowLe decRowLe_ts_le _
      (List.sorted_insertionSort decRowLe D) hnds
  have hnd2 : ((D.map toCreatedEvent).map (fun e => e.timestamp)).Nodup := by
    rw [List.map_map]
    exact hnd
  have hev : List.Pairwise eventTsLt (List.insertionSort eventLe (D.map toCreatedEvent)) :=
    pairwise_keyLt_of_sorted (fun e => e.timestamp) eventLe eventLe_ts_le _
      (List.sorted_insertionSort eventLe _)
      ((((List.perm_insertionSort eventLe (D.map toCreatedEvent)).map _).nodup_iff).mpr hnd2)
  refine List.eq_of_perm_of_sorted ?_ ?_ hev
  · exact ((List.perm_insertionSort decRowLe D).map toCreatedEvent).trans
      (List.perm_insertionSort eventLe _).symm
  · exact List.pairwise_map.mpr hrow

theorem mapToApproval_sort (J : List JoinedApprovalRow)
    (hnd : (J.map (fun j => j.created_at)).Nodup) :
    (List.insertionSort appRowLe J).map toApprovalEvent =
      List.insertionSort eventLe (J.map toApprovalEvent) := by
  have hnds : ((List.insertionSort appRowLe J).map (fun j => j.created_at)).Nodup :=
    (((List.perm_insertionSort appRowLe J).map _).nodup_iff).mpr hnd
  have hrow : List.Pairwise (fun a b : JoinedApprovalRow => a.created_at < b.created_at)
      (List.insertionSort appRowLe J) :=
    pairwise_keyLt_of_sorted (fun j => j.created_at) appRowLe appRowLe_ts_le _
      (List.sorted_insertionSort appRowLe J) hnds
  have hnd2 : ((J.map toApprovalEvent).map (fun e => e.timestamp)).Nodup := by
    rw [List.map_map]
    exact hnd
  have hev : List.Pairwise eventTsLt (List.insertionSort eventLe (J.map toApprovalEvent)) :=
    pairwise_keyLt_of_sorted (fun e => e.timestamp) eventLe eventLe_ts_le _
      (List.sorted_insertionSort eventLe _)
      ((((List.perm_insertionSort eventLe (J.map toApprovalEvent)).map _).nodup_iff).mpr hnd2)
  refine List.eq_of_perm_of_sorted ?_ ?_ hev
  · exact ((List.perm_insertionSort appRowLe J).map toApprovalEvent).trans
      (List.perm_insertionSort eventLe _).symm
  · exact List.pairwise_map.mpr hrow

theorem insertionSort_filter_comm (q : DecisionEvent → Bool) (L : List DecisionEvent)
    (hnd : (L.map (fun e => e.timestamp)).Nodup) :
    List.insertionSort eventLe (L.filter q) = (List.insertionSort eventLe L).filter q := by
  have hndf : ((L.filter q).map (fun e => e.timestamp)).Nodup :=
    List.Nodup.sublist ((List.filter_sublist L).map _) hnd
  have h1 : List.Pairwise eventTsLt (List.insertionSort eventLe (L.filter q)) :=
    pairwise_keyLt_of_sorted (fun e => e.timestamp) eventLe eventLe_ts_le _
      (List.sorted_insertionSort eventLe _)
      ((((List.perm_insertionSort eventLe (L.filter q)).map _).nodup_iff).mpr hndf)
  have hG : List.Pairwise eventTsLt (List.insertionSort eventLe L) :=
    pairwise_keyLt_of_sorted (fun e => e.timestamp) eventLe eventLe_ts_le _
      (List.sorted_insertionSort eventLe _)
      ((((List.perm_insertionSort eventLe L).map _).nodup_iff).mpr hnd)
  have h2 : List.Pairwise eventTsLt ((List.insertionSort eventLe L).filter q) :=
    List.Pairwise.filter q hG
  refine List.eq_of_perm_of_sorted ?_ h1 h2
  exact (List.perm_insertionSort eventLe _).trans
    ((List.perm_insertionSort eventLe L).filter q).symm

theorem joinApprovals_map_created_at (A : List ApprovalRow) (D : List DecisionRow)
    (hjoin : ∀ a ∈ A, ∃ d ∈ D, d.id = a.decision_id) :
    (joinApprovals A D).map (fun j => j.created_at) = A.map (fun a => a.created_at) := by
  induction A with
  | nil => rfl
  | cons a A' ih =>
    obtain ⟨d, hd, hid⟩ := hjoin a (List.mem_cons_self _ _)
    have hf : (D.find? (fun d2 => d2.id == a.decision_id)).isSome := by
      rw [List.find?_isSome]
      exact ⟨d, hd, by simp [hid]⟩
    obtain ⟨d0, hd0⟩ := Option.isSome_iff_exists.mp hf
    unfold joinApprovals
    rw [List.filterMap_cons, hd0, Option.map_some']
    simp only [List.map_cons]
    unfold joinApprovals at ih
    rw [ih (fun x hx => hjoin x (List.mem_cons_of_mem _ hx))]

theorem noFilterPage_eq (D : List DecisionRow) (A : List ApprovalRow) (c : Option Nat)
    (cursor : Option CursorParts) (k : Nat)
    (hjoin : ∀ a ∈ A, ∃ d ∈ D, d.id = a.decision_id)
    (hts : ((D.map fun d => d.created_at) ++ (A.map fun a => a.created_at)).Nodup)
    (hD : D.filter (fun d => cursorKeep cursor d.created_at d.id) =
      D.filter (fun d => tsKeep c d.created_at))
    (hA : (joinApprovals A D).filter (fun j => cursorKeep cursor j.created_at j.id) =
      (joinApprovals A D).filter (fun j => tsKeep c j.created_at)) :
    noFilterPage D A cursor k =
      ((sortedAllEvents D A).filter (fun e => tsKeep c e.timestamp)).take k := by
  have hjm := joinApprovals_map_created_at A D hjoin
  have htsD : (D.map fun d => d.created_at).Nodup := (List.nodup_append.mp hts).1
  have htsA : (A.map fun a => a.created_at).Nodup := (List.nodup_append.mp hts).2.1
  have htsAj : ((joinApprovals A D).map fun j => j.created_at).Nodup := by
    rw [hjm]; exact htsA
  have htsDisj : (D.map fun d => d.created_at).Disjoint (A.map fun a => a.created_at) :=
    (List.nodup_append.mp hts).2.2
  have htsJoined : ((D.map fun d => d.created_at) ++
      ((joinApprovals A D).map fun j => j.created_at)).Nodup := by
    rw [hjm]; exact hts
  have htsE : ((allDecisionEvents D A).map fun e => e.timestamp).Nodup := by
    unfold allDecisionEvents
    rw [List.map_append, List.map_map, List.map_map]
    exact htsJoined
  have hfDnd : ((D.filter (fun d => tsKeep c d.created_at)).map fun d => d.created_at).Nodup :=
    List.Nodup.sublist ((List.filter_sublist D).map _) htsD
  have hfAnd : (((joinApprovals A D).filter (fun j => tsKeep c j.created_at)).map
      fun j => j.created_at).Nodup :=
    List.Nodup.sublist ((List.filter_sublist _).map _) htsAj
  have hac : (fun j : JoinedApprovalRow =>
      approvedCond true true j.approved && cursorKeep cursor j.created_at j.id) =
      (fun j : JoinedApprovalRow => cursorKeep cursor j.created_at j.id) := rfl
  unfold noFilterPage decisionsQueryRows approvalsQueryRows
  rw [hac, hD, hA, List.map_take, List.map_take]
  rw [mapToCreated_sort _ hfDnd, mapToApproval_sort _ hfAnd]
  have hndXY : ((((D.filter (fun d => tsKeep c d.created_at)).map toCreatedEvent) ++
      (((joinApprovals A D).filter (fun j => tsKeep c j.created_at)).map toApprovalEvent)).map
        fun e => e.timestamp).Nodup := by
    rw [List.map_append, List.map_map, List.map_map]
    refine List.Nodup.sublist (List.Sublist.append ?_ ?_) htsJoined
    · exact (List.filter_sublist D).map _
    · exact (List.filter_sublist _).map _
  rw [take_sort_merge (fun e => e.timestamp) eventLe eventLe_ts_le _ _ k hndXY]
  have hcd : (D.filter (fun d => tsKeep c d.created_at)).map toCreatedEvent =
      (D.map toCreatedEvent).filter (fun e => tsKeep c e.timestamp) := by
    rw [List.filter_map]
    rfl
  have hca : ((joinApprovals A D).filter (fun j => tsKeep c j.created_at)).map toApprovalEvent =
      ((joinApprovals A D).map toApprovalEvent).filter (fun e => tsKeep c e.timestamp) := by
    rw [List.filter_map]
    rfl
  rw [hcd, hca, ← List.filter_append]
  rw [show D.map toCreatedEvent ++ (joinApprovals A D).map toApprovalEvent =
    allDecisionEvents D A from rfl]
  rw [insertionSort_filter_comm _ _ htsE]
  rfl

theorem filter_cursor_eq_tsKeep {α : Type} (tsf : α → Nat) (idf : α → String)
    (L : List α) (ty : String) (cts : Nat) (rid : String)
    (hsame : ∀ x ∈ L, tsf x = cts → idf x = rid) :
    L.filter (fun x => cursorKeep (some ⟨ty, rid, (cts : Int)⟩) (tsf x) (idf x)) =
      L.filter (fun x => tsKeep (some cts) (tsf x)) := by
  apply List.filter_congr
  intro x hx
  simp only [cursorKeep, tsKeep]
  rw [decide_eq_decide]
  constructor
  · rintro (h | ⟨heq, hlt⟩)
    · exact_mod_cast h
    · have h2 : tsf x = cts := by exact_mod_cast heq.symm
      rw [hsame x hx h2] at hlt
      unfold jsStrLt at hlt
      rw [charListLt_irrefl] at hlt
      exact absurd hlt (by simp)
  · intro h
    exact Or.inl (by exact_mod_cast h)

theorem eventTypeStr_no_colon : ∀ t : DecisionEventType,
    ':' ∉ (eventTypeStr t).data ∧ (eventTypeStr t).data ≠ [] := by
  intro t
  cases t <;> exact ⟨by decide, by decide⟩

theorem page_no_cursor (D : List DecisionRow) (A : List ApprovalRow)
    (hjoin : ∀ a ∈ A, ∃ d ∈ D, d.id = a.decision_id)
    (hts : ((D.map fun d => d.created_at) ++ (A.map fun a => a.created_at)).Nodup)
    (lim : Option String) :
    listDecisionEvents D A none none lim =
      pageResponse ((sortedAllEvents D A).take (effLimit lim)) := by
  rw [listDecisionEvents_types_none]
  congr 1
  have h := noFilterPage_eq D A none none (effLimit lim) hjoin hts rfl rfl
  rw [show cursorOf none = (none : Option CursorParts) from rfl, h,
    show (fun e : DecisionEvent => tsKeep none e.timestamp) =
      (fun _ => true) from rfl, List.filter_true]

theorem page_after_event (D : List DecisionRow) (A : List ApprovalRow)
    (hjoin : ∀ a ∈ A, ∃ d ∈ D, d.id = a.decision_id)
    (hts : ((D.map fun d => d.created_at) ++ (A.map fun a => a.created_at)).Nodup)
    (e : DecisionEvent) (he : e ∈ allDecisionEvents D A) (lim : Option String) :
    listDecisionEvents D A none (some e.id) lim =
      pageResponse (((sortedAllEvents D A).filter
        (fun y => tsKeep (some e.timestamp) y.timestamp)).take (effLimit lim)) := by
  have hjm := joinApprovals_map_created_at A D hjoin
  have htsD : (D.map fun d => d.created_at).Nodup := (List.nodup_append.mp hts).1
  have htsA : (A.map fun a => a.created_at).Nodup := (List.nodup_append.mp hts).2.1
  have htsAj : ((joinApprovals A D).map fun j => j.created_at).Nodup := by
    rw [hjm]; exact htsA
  have htsDisj : (D.map fun d => d.created_at).Disjoint (A.map fun a => a.created_at) :=
    (List.nodup_append.mp hts).2.2
  rw [listDecisionEvents_types_none]
  congr 1
  rcases List.mem_append.mp he with hd | ha
  · obtain ⟨d, hdD, rfl⟩ := List.mem_map.mp hd
    have hne : (toCreatedEvent d).id ≠ "" :=
      buildEventId_ne_empty _ _ _ (eventTypeStr_no_colon .plan_created).2
    have hco : cursorOf (some (toCreatedEvent d).id) =
        some ⟨eventTypeStr .plan_created, d.id, (d.created_at : Int)⟩ := by
      show (if (toCreatedEvent d).id = "" then none else parseCursor (toCreatedEvent d).id) = _
      rw [if_neg hne]
      exact parseCursor_buildEventId _ _ _ (eventTypeStr_no_colon .plan_created).1
    rw [hco]
    apply noFilterPage_eq D A (some d.created_at) _ _ hjoin hts
    · apply filter_cursor_eq_tsKeep
      intro x hxD hxts
      have hxd : x = d :=
        List.inj_on_of_nodup_map htsD hxD hdD hxts
      rw [hxd]
    · apply filter_cursor_eq_tsKeep
      intro j hjJ hjts
      exfalso
      have h1 : d.created_at ∈ D.map fun d2 => d2.created_at := List.mem_map_of_mem _ hdD
      have h2 : d.created_at ∈ A.map fun a => a.created_at := by
        rw [← hjm, ← hjts]
        exact List.mem_map_of_mem _ hjJ
      exact htsDisj h1 h2
  · obtain ⟨j, hjJ, rfl⟩ := List.mem_map.mp ha
    have hne : (toApprovalEvent j).id ≠ "" :=
      buildEventId_ne_empty _ _ _ (eventTypeStr_no_colon (mapApprovalToEventType j.approved)).2
    have hco : cursorOf (some (toApprovalEvent j).id) =
        some ⟨eventTypeStr (mapApprovalToEventType j.approved), j.id, (j.created_at : Int)⟩ := by
      show (if (toApprovalEvent j).id = "" then none else parseCursor (toApprovalEvent j).id) = _
      rw [if_neg hne]
      exact parseCursor_buildEventId _ _ _
        (eventTypeStr_no_colon (mapApprovalToEventType j.approved)).1
    rw [hco]
    apply noFilterPage_eq D A (some j.created_at) _ _ hjoin hts
    · apply filter_cursor_eq_tsKeep
      intro x hxD hxts
      exfalso
      have h1 : j.created_at ∈ D.map fun d2 => d2.created_at := by
        rw [← hxts]
        exact List.mem_map_of_mem _ hxD
      have h2 : j.created_at ∈ A.map fun a => a.created_at := by
        rw [← hjm]
        exact List.mem_map_of_mem _ hjJ
      exact htsDisj h1 h2
    · apply filter_cursor_eq_tsKeep
      intro j2 hj2 hjts
      have hjj : j2 = j :=
        List.inj_on_of_nodup_map htsAj hj2 hjJ hjts
      rw [hjj]

theorem allDecisionEvents_ts (D : List DecisionRow) (A : List ApprovalRow)
    (hjoin : ∀ a ∈ A, ∃ d ∈ D, d.id = a.decision_id) :
    (allDecisionEvents D A).map (fun e => e.timestamp) =
      (D.map fun d => d.created_at) ++ (A.map fun a => a.created_at) := by
  have h1 : (D.map toCreatedEvent).map (fun e => e.timestamp) =
      D.map (fun d => d.created_at) := by
    rw [List.map_map]; rfl
  have h2 : ((joinApprovals A D).map toApprovalEvent).map (fun e => e.timestamp) =
      (joinApprovals A D).map (fun j => j.created_at) := by
    rw [List.map_map]; rfl
  unfold allDecisionEvents
  rw [List.map_append, h1, h2, joinApprovals_map_created_at A D hjoin]

theorem list_length_five {α : Type} (l : List α) (h : l.length = 5) :
    ∃ a b c d e, l = [a, b, c, d, e] := by
  rcases l with _ | ⟨a, _ | ⟨b, _ | ⟨c, _ | ⟨d, _ | ⟨e, _ | ⟨f, t⟩⟩⟩⟩⟩⟩ <;> simp at h
  exact ⟨a, b, c, d, e, rfl⟩

/- ============================================================
   Claim C1
   ============================================================ -/

/-- C1 (counterexample): with page size 2 and 5 decision rows of distinct
timestamps spread across the two relations, the third consecutive call does
return the remaining fifth event, but its `next_cursor` is the id of that
event — not null as the claim states (the cursor is null only when a page is
empty). -/
theorem C1_pagination_counterexample :
    (listDecisionEvents c1Decisions c1Approvals none
      (listDecisionEvents c1Decisions c1Approvals none
        (listDecisionEvents c1Decisions c1Approvals none none (some "2")).next_cursor
        (some "2")).next_cursor (some "2")).next_cursor ≠ none ∧
    ((listDecisionEvents c1Decisions c1Approvals none
      (listDecisionEvents c1Decisions c1Approvals none
        (listDecisionEvents c1Decisions c1Approvals none none (some "2")).next_cursor
        (some "2")).next_cursor (some "2")).events.map (fun e => e.timestamp) = [50]) ∧
    c1Decisions.length + c1Approvals.length = 5 := by
  refine ⟨by decide, by decide, by decide⟩

/-- C1 (amended): with page size 2 and 5 decision rows with pairwise-distinct
timestamps spread across the decisions and approvals relations, three
consecutive calls, each passing the previous response's `next_cursor`, return
all 5 events exactly once, strictly ordered by timestamp ascending; the third
call's `next_cursor` is the id of the last (fifth) event rather than null, and
a fourth call returns no events with a null `next_cursor`. -/
theorem C1_pagination_amended (D : List DecisionRow) (A : List ApprovalRow)
    (hD : D ≠ []) (hA : A ≠ [])
    (hjoin : ∀ a ∈ A, ∃ d ∈ D, d.id = a.decision_id)
    (hcount : D.length + A.length = 5)
    (hts : ((D.map fun d => d.created_at) ++ (A.map fun a => a.created_at)).Nodup) :
    (listDecisionEvents D A none none (some "2")).events ++
      (listDecisionEvents D A none
        (listDecisionEvents D A none none (some "2")).next_cursor (some "2")).events ++
      (listDecisionEvents D A none
        (listDecisionEvents D A none
          (listDecisionEvents D A none none (some "2")).next_cursor (some "2")).next_cursor
        (some "2")).events = sortedAllEvents D A ∧
    (sortedAllEvents D A).Perm (allDecisionEvents D A) ∧
    (sortedAllEvents D A).length = 5 ∧
    List.Pairwise eventTsLt (sortedAllEvents D A) ∧
    (listDecisionEvents D A none
      (listDecisionEvents D A none
        (listDecisionEvents D A none none (some "2")).next_cursor (some "2")).next_cursor
      (some "2")).next_cursor ≠ none ∧
    (listDecisionEvents D A none
      (listDecisionEvents D A none
        (listDecisionEvents D A none
          (listDecisionEvents D A none none (some "2")).next_cursor
          (some "2")).next_cursor (some "2")).next_cursor (some "2")).events = [] ∧
    (listDecisionEvents D A none
      (listDecisionEvents D A none
        (listDecisionEvents D A none
          (listDecisionEvents D A none none (some "2")).next_cursor
          (some "2")).next_cursor (some "2")).next_cursor (some "2")).next_cursor = none := by
  have hk : effLimit (some "2") = 2 := by decide
  have hGperm : (sortedAllEvents D A).Perm (allDecisionEvents D A) :=
    List.perm_insertionSort eventLe _
  have hlenJoin : (joinApprovals A D).length = A.length := by
    have h := congrArg List.length (joinApprovals_map_created_at A D hjoin)
    simpa using h
  have hlenAll : (allDecisionEvents D A).length = 5 := by
    unfold allDecisionEvents
    rw [List.length_append, List.length_map, List.length_map, hlenJoin]
    omega
  have hGlen : (sortedAllEvents D A).length = 5 := by
    rw [hGperm.length_eq]; exact hlenAll
  have htsG : ((sortedAllEvents D A).map fun e => e.timestamp).Nodup := by
    refine ((hGperm.map _).nodup_iff).mpr ?_
    rw [allDecisionEvents_ts D A hjoin]
    exact hts
  have hGpair : List.Pairwise eventTsLt (sortedAllEvents D A) :=
    pairwise_keyLt_of_sorted (fun e => e.timestamp) eventLe eventLe_ts_le _
      (List.sorted_insertionSort eventLe _) htsG
  obtain ⟨g0, g1, g2, g3, g4, hG5⟩ := list_length_five _ hGlen
  have hmemG : ∀ x ∈ sortedAllEvents D A, x ∈ allDecisionEvents D A :=
    fun x hx => hGperm.subset hx
  have p01 : g0.timestamp < g1.timestamp := by
    rw [hG5] at hGpair; exact List.rel_of_pairwise_cons hGpair (by simp)
  have p02 : g0.timestamp < g2.timestamp := by
    rw [hG5] at hGpair; exact List.rel_of_pairwise_cons hGpair (by simp)
  have p12 : g1.timestamp < g2.timestamp := by
    rw [hG5] at hGpair
    exact List.rel_of_pairwise_cons hGpair.of_cons (by simp)
  have p13 : g1.timestamp < g3.timestamp := by
    rw [hG5] at hGpair
    exact List.rel_of_pairwise_cons hGpair.of_cons (by simp)
  have p14 : g1.timestamp < g4.timestamp := by
    rw [hG5] at hGpair
    exact List.rel_of_pairwise_cons hGpair.of_cons (by simp)
  have p23 : g2.timestamp < g3.timestamp := by
    rw [hG5] at hGpair
    exact List.rel_of_pairwise_cons hGpair.of_cons.of_cons (by simp)
  have p34 : g3.timestamp < g4.timestamp := by
    rw [hG5] at hGpair
    exact List.rel_of_pairwise_cons hGpair.of_cons.of_cons.of_cons (by simp)
  have e1 : listDecisionEvents D A none none (some "2") =
      pageResponse ((sortedAllEvents D A).take 2) := by
    rw [page_no_cursor D A hjoin hts, hk]
  have hnc1 : (listDecisionEvents D A none none (some "2")).next_cursor = some g1.id := by
    rw [e1, hG5]; rfl
  have hg1mem : g1 ∈ allDecisionEvents D A := hmemG g1 (by rw [hG5]; simp)
  have hf1 : (sortedAllEvents D A).filter
      (fun y => tsKeep (some g1.timestamp) y.timestamp) = [g2, g3, g4] := by
    rw [hG5]
    simp only [List.filter_cons, List.filter_nil, tsKeep, decide_eq_true_eq]
    rw [if_neg (by omega), if_neg (by omega), if_pos (by omega), if_pos (by omega),
      if_pos (by omega)]
  have e2 : listDecisionEvents D A none
      (listDecisionEvents D A none none (some "2")).next_cursor (some "2") =
      pageResponse [g2, g3] := by
    rw [hnc1, page_after_event D A hjoin hts g1 hg1mem, hk, hf1]
    rfl
  have hnc2 : (listDecisionEvents D A none
      (listDecisionEvents D A none none (some "2")).next_cursor (some "2")).next_cursor =
      some g3.id := by
    rw [e2]; rfl
  have hg3mem : g3 ∈ allDecisionEvents D A := hmemG g3 (by rw [hG5]; simp)
  have hf3 : (sortedAllEvents D A).filter
      (fun y => tsKeep (some g3.timestamp) y.timestamp) = [g4] := by
    rw [hG5]
    simp only [List.filter_cons, List.filter_nil, tsKeep, decide_eq_true_eq]
    rw [if_neg (by omega), if_neg (by omega), if_neg (by omega), if_neg (by omega),
      if_pos (by omega)]
  have e3 : listDecisionEvents D A none
      (listDecisionEvents D A none
        (listDecisionEvents D A none none (some "2")).next_cursor (some "2")).next_cursor
      (some "2") = pageResponse [g4] := by
    rw [hnc2, page_after_event D A hjoin hts g3 hg3mem, hk, hf3]
    rfl
  have hnc3 : (listDecisionEvents D A none
      (listDecisionEvents D A none
        (listDecisionEvents D A none none (some "2")).next_cursor (some "2")).next_cursor
      (some "2")).next_cursor = some g4.id := by
    rw [e3]; rfl
  have hg4mem : g4 ∈ allDecisionEvents D A := hmemG g4 (by rw [hG5]; simp)
  have hf4 : (sortedAllEvents D A).filter
      (fun y => tsKeep (some g4.timestamp) y.timestamp) = [] := by
    rw [hG5]
    simp only [List.filter_cons, List.filter_nil, tsKeep, decide_eq_true_eq]
    rw [if_neg (by omega), if_neg (by omega), if_neg (by omega), if_neg (by omega),
      if_neg (by omega)]
  have e4 : listDecisionEvents D A none
      (listDecisionEvents D A none
        (listDecisionEvents D A none
          (listDecisionEvents D A none none (some "2")).next_cursor
          (some "2")).next_cursor (some "2")).next_cursor (some "2") =
      pageResponse [] := by
    rw [hnc3, page_after_event D A hjoin hts g4 hg4mem, hk, hf4]
    rfl
  refine ⟨?_, hGperm, hGlen, hGpair, ?_, ?_, ?_⟩
  · rw [e3, e2, e1, hG5]
    rfl
  · rw [hnc3]; simp
  · rw [e4]; rfl
  · rw [e4]; rfl

/-- C1 (witness): the amended pagination theorem applied to a concrete store
of three decisions and two approvals with distinct timestamps. -/
theorem C1_pagination_witness :
    (listDecisionEvents c1Decisions c1Approvals none none (some "2")).events ++
      (listDecisionEvents c1Decisions c1Approvals none
        (listDecisionEvents c1Decisions c1Approvals none none (some "2")).next_cursor
        (some "2")).events ++
      (listDecisionEvents c1Decisions c1Approvals none
        (listDecisionEvents c1Decisions c1Approvals none
          (listDecisionEvents c1Decisions c1Approvals none none
            (some "2")).next_cursor (some "2")).next_cursor
        (some "2")).events = sortedAllEvents c1Decisions c1Approvals ∧
    (sortedAllEvents c1Decisions c1Approvals).Perm
      (allDecisionEvents c1Decisions c1Approvals) ∧
    (sortedAllEvents c1Decisions c1Approvals).length = 5 ∧
    List.Pairwise eventTsLt (sortedAllEvents c1Decisions c1Approvals) ∧
    (listDecisionEvents c1Decisions c1Approvals none
      (listDecisionEvents c1Decisions c1Approvals none
        (listDecisionEvents c1Decisions c1Approvals none none
          (some "2")).next_cursor (some "2")).next_cursor
      (some "2")).next_cursor ≠ none ∧
    (listDecisionEvents c1Decisions c1Approvals none
      (listDecisionEvents c1Decisions c1Approvals none
        (listDecisionEvents c1Decisions c1Approvals none
          (listDecisionEvents c1Decisions c1Approvals none none
            (some "2")).next_cursor (some "2")).next_cursor
        (some "2")).next_cursor (some "2")).events = [] ∧
    (listDecisionEvents c1Decisions c1Approvals none
      (listDecisionEvents c1Decisions c1Approvals none
        (listDecisionEvents c1Decisions c1Approvals none
          (listDecisionEvents c1Decisions c1Approvals none none
            (some "2")).next_cursor (some "2")).next_cursor
        (some "2")).next_cursor (some "2")).next_cursor = none :=
  C1_pagination_amended c1Decisions c1Approvals (by decide) (by decide) (by decide)
    (by decide) (by decide)

/- ============================================================
   Claim C2
   ============================================================ -/

theorem approvalHandler_db_eq (p : ApprovalPayload) (D : List DecisionRow)
    (db : List LearningEventRow) (u t : String) :
    (createApprovalLearningHandler p D db u t).db =
      insertOnConflictDoNothing db (approvalRow p D u t) := rfl

theorem approvalRow_inputs_hash (p : ApprovalPayload) (D : List DecisionRow)
    (u t : String) : (approvalRow p D u t).inputs_hash = approvalHash p t := rfl

theorem approvalRow_id (p : ApprovalPayload) (D : List DecisionRow)
    (u t : String) : (approvalRow p D u t).id = u := rfl

theorem approvalHash_ts_indep (p : ApprovalPayload) (ts t1 t2 : String)
    (hts : p.timestamp = some ts) (hne : ts ≠ "") :
    approvalHash p t1 = approvalHash p t2 := by
  unfold approvalHash approvalInputs
  rw [hts]
  simp [jsOrStr, hne]

set_option maxRecDepth 100000 in
/-- C2 (counterexample): the same approval payload — carrying no timestamp —
submitted twice at server times "t1" and "t2" leaves TWO rows in
learning_events, because the hashed inputs embed `timestamp || now()`; the
claimed single-row idempotency fails. -/
theorem C2_idempotency_counterexample :
    (createApprovalLearningHandler cexPayloadNoTs []
        (createApprovalLearningHandler cexPayloadNoTs [] [] "u1" "t1").db
        "u2" "t2").db.length = 2 ∧
    cexPayloadNoTs.timestamp = none := by
  refine ⟨by decide, rfl⟩

/-- C2 (amended): when the payload carries a non-empty explicit timestamp,
the approval flow is idempotent: the first request appends exactly one row
with the payload fingerprint, and a repeat of the same payload — at a
different server time and with a different fresh id — returns 201 while
leaving the store unchanged; the fingerprint-uniqueness invariant is
preserved. -/
theorem C2_idempotency_amended (p : ApprovalPayload) (D : List DecisionRow)
    (db0 : List LearningEventRow) (u1 u2 t1 t2 ts : String)
    (hts : p.timestamp = some ts) (hne : ts ≠ "")
    (hfresh : ∀ r ∈ db0, r.inputs_hash ≠ approvalHash p t1)
    (hnodup : hashesNodup db0) :
    (createApprovalLearningHandler p D db0 u1 t1).status = 201 ∧
    (createApprovalLearningHandler p D
      (createApprovalLearningHandler p D db0 u1 t1).db u2 t2).status = 201 ∧
    (createApprovalLearningHandler p D db0 u1 t1).db.length = db0.length + 1 ∧
    (createApprovalLearningHandler p D
      (createApprovalLearningHandler p D db0 u1 t1).db u2 t2).db =
      (createApprovalLearningHandler p D db0 u1 t1).db ∧
    ((createApprovalLearningHandler p D db0 u1 t1).db.filter
      (fun r => r.inputs_hash == approvalHash p t1)).length = 1 ∧
    hashesNodup (createApprovalLearningHandler p D db0 u1 t1).db := by
  have hr1hash := approvalRow_inputs_hash p D u1 t1
  have hany1 : db0.any
      (fun r => r.inputs_hash == (approvalRow p D u1 t1).inputs_hash) = false := by
    rw [List.any_eq_false]
    intro r hr
    simp only [beq_iff_eq, hr1hash]
    exact hfresh r hr
  have hdb1 : (createApprovalLearningHandler p D db0 u1 t1).db =
      db0 ++ [approvalRow p D u1 t1] := by
    rw [approvalHandler_db_eq, insertOnConflictDoNothing, hany1]
    simp
  have hr2hash := approvalRow_inputs_hash p D u2 t2
  have hhash21 : (approvalRow p D u2 t2).inputs_hash =
      (approvalRow p D u1 t1).inputs_hash := by
    rw [hr2hash, hr1hash]
    exact approvalHash_ts_indep p ts t2 t1 hts hne
  have hany2 : ((createApprovalLearningHandler p D db0 u1 t1).db).any
      (fun r => r.inputs_hash == (approvalRow p D u2 t2).inputs_hash) = true := by
    rw [hdb1, List.any_eq_true]
    exact ⟨approvalRow p D u1 t1, by simp, by simp [hhash21]⟩
  have hdb2 : (createApprovalLearningHandler p D
      (createApprovalLearningHandler p D db0 u1 t1).db u2 t2).db =
      (createApprovalLearningHandler p D db0 u1 t1).db := by
    rw [approvalHandler_db_eq, insertOnConflictDoNothing, hany2]
    simp
  refine ⟨rfl, rfl, ?_, hdb2, ?_, ?_⟩
  · rw [hdb1]
    simp
  · rw [hdb1, List.filter_append]
    have h0 : db0.filter (fun r => r.inputs_hash == approvalHash p t1) = [] := by
      rw [List.filter_eq_nil_iff]
      intro r hr
      simp only [beq_iff_eq]
      exact hfresh r hr
    rw [h0]
    simp [hr1hash]
  · rw [hdb1]
    unfold hashesNodup
    rw [List.pairwise_append]
    refine ⟨hnodup, by simp, ?_⟩
    intro a ha b hb
    simp only [List.mem_singleton] at hb
    rw [hb, hr1hash]
    exact hfresh a ha

set_option maxRecDepth 100000 in
/-- C2 (witness): the amended idempotency theorem applied to a concrete
timestamped payload against an empty store. -/
theorem C2_idempotency_witness :
    (createApprovalLearningHandler cexPayloadTs [] [] "u1" "t1").status = 201 ∧
    (createApprovalLearningHandler cexPayloadTs []
      (createApprovalLearningHandler cexPayloadTs [] [] "u1" "t1").db "u2" "t2").status = 201 ∧
    (createApprovalLearningHandler cexPayloadTs [] [] "u1" "t1").db.length =
      ([] : List LearningEventRow).length + 1 ∧
    (createApprovalLearningHandler cexPayloadTs []
      (createApprovalLearningHandler cexPayloadTs [] [] "u1" "t1").db "u2" "t2").db =
      (createApprovalLearningHandler cexPayloadTs [] [] "u1" "t1").db ∧
    ((createApprovalLearningHandler cexPayloadTs [] [] "u1" "t1").db.filter
      (fun r => r.inputs_hash == approvalHash cexPayloadTs "t1")).length = 1 ∧
    hashesNodup (createApprovalLearningHandler cexPayloadTs [] [] "u1" "t1").db :=
  C2_idempotency_amended cexPayloadTs [] [] "u1" "u2" "t1" "t2"
    "2024-01-01T00:00:00.000Z" rfl (by decide) (by simp) List.Pairwise.nil

/- ============================================================
   Claim C3
   ============================================================ -/

theorem find_first_unique {α : Type} (p : α → Bool) (l : List α) (a : α)
    (ha : a ∈ l) (hpa : p a = true) (huniq : ∀ b ∈ l, p b = true → b = a) :
    l.find? p = some a := by
  induction l with
  | nil => cases ha
  | cons x xs ih =>
    by_cases hx : p x = true
    · rw [List.find?_cons_of_pos _ hx, huniq x (List.mem_cons_self x xs) hx]
    · rw [List.find?_cons_of_neg _ hx]
      have ha2 : a ∈ xs := by
        rcases List.mem_cons.mp ha with h | h
        · exact absurd (h ▸ hpa) hx
        · exact h
      exact ih ha2 (fun b hb hpb => huniq b (List.mem_cons_of_mem _ hb) hpb)

theorem approval_db_contains (p : ApprovalPayload) (D : List DecisionRow)
    (db : List LearningEventRow) (u t : String) :
    ∃ r ∈ (createApprovalLearningHandler p D db u t).db,
      r.inputs_hash = approvalHash p t := by
  rw [approvalHandler_db_eq, insertOnConflictDoNothing]
  by_cases h : db.any (fun r => r.inputs_hash == (approvalRow p D u t).inputs_hash) = true
  · rw [if_pos h]
    obtain ⟨r, hr, hrh⟩ := List.any_eq_true.mp h
    refine ⟨r, hr, ?_⟩
    have := beq_iff_eq.mp hrh
    rw [this, approvalRow_inputs_hash]
  · rw [if_neg h]
    exact ⟨approvalRow p D u t, by simp, approvalRow_inputs_hash p D u t⟩

theorem approval_insert_noop (p : ApprovalPayload) (D : List DecisionRow)
    (db : List LearningEventRow) (u t : String)
    (hcont : ∃ r ∈ db, r.inputs_hash = approvalHash p t) :
    (createApprovalLearningHandler p D db u t).db = db := by
  rw [approvalHandler_db_eq, insertOnConflictDoNothing]
  obtain ⟨r, hr, hrh⟩ := hcont
  rw [if_pos (List.any_eq_true.mpr
    ⟨r, hr, by rw [approvalRow_inputs_hash, hrh]; exact beq_self_eq_true _⟩)]

set_option maxRecDepth 100000 in
/-- C3 (counterexample): a repeated approval payload is detected as a
duplicate (the store keeps only the first row, id "u1", and both responses
carry the same fingerprint), yet the second response's id is the freshly
generated "u2" — not the stored event's id as claimed. -/
theorem C3_dedup_response_counterexample :
    (createApprovalLearningHandler cexPayloadTs []
      (createApprovalLearningHandler cexPayloadTs [] [] "u1" "t1").db
      "u2" "t2").resp.id = "u2" ∧
    ((createApprovalLearningHandler cexPayloadTs []
      (createApprovalLearningHandler cexPayloadTs [] [] "u1" "t1").db
      "u2" "t2").db.map (fun r => r.id)) = ["u1"] ∧
    (createApprovalLearningHandler cexPayloadTs []
      (createApprovalLearningHandler cexPayloadTs [] [] "u1" "t1").db
      "u2" "t2").resp.inputs_hash =
      (createApprovalLearningHandler cexPayloadTs [] [] "u1" "t1").resp.inputs_hash := by
  refine ⟨rfl, by decide, by decide⟩

/-- C3 (amended): on a duplicate fingerprint the feedback writer returns the
EXISTING row's id with the store unchanged, while the approval handler also
leaves the store unchanged but responds with the freshly generated id of this
request — not the stored event's id. -/
theorem C3_dedup_response_amended (e : FeedbackAssimilationEvent)
    (db : List LearningEventRow) (freshId now : String) (r0 : LearningEventRow)
    (hr0 : r0 ∈ db) (hh : r0.inputs_hash = e.inputs_hash)
    (hd : r0.decision_type = e.decision_type) (hnd : hashesNodup db)
    (p : ApprovalPayload) (D : List DecisionRow) (db0 : List LearningEventRow)
    (u1 u2 t1 t2 ts : String) (hts : p.timestamp = some ts) (hne : ts ≠ "") :
    emitLearningEvent e db freshId now = .ok (r0.id, db) ∧
    (createApprovalLearningHandler p D
      (createApprovalLearningHandler p D db0 u1 t1).db u2 t2).resp.id = u2 ∧
    (createApprovalLearningHandler p D
      (createApprovalLearningHandler p D db0 u1 t1).db u2 t2).db =
      (createApprovalLearningHandler p D db0 u1 t1).db := by
  refine ⟨?_, rfl, ?_⟩
  · have hfind : db.find?
        (fun r => r.inputs_hash == e.inputs_hash && r.decision_type == e.decision_type) =
        some r0 := by
      apply find_first_unique
      · exact hr0
      · simp [hh, hd]
      · intro b hb hpb
        simp only [Bool.and_eq_true, beq_iff_eq] at hpb
        by_contra hbne
        have hsym : Symmetric
            (fun r1 r2 : LearningEventRow => r1.inputs_hash ≠ r2.inputs_hash) :=
          fun _ _ h1 hx => h1 hx.symm
        have hRne : b.inputs_hash ≠ r0.inputs_hash :=
          List.Pairwise.forall hsym hnd hb hr0 hbne
        exact hRne (hpb.1.trans hh.symm)
    unfold emitLearningEvent
    rw [hfind]
  · apply approval_insert_noop
    obtain ⟨r, hr, hrh⟩ := approval_db_contains p D db0 u1 t1
    exact ⟨r, hr, hrh.trans (approvalHash_ts_indep p ts t1 t2 hts hne)⟩

/-- C3 (witness): the amended dedup-response theorem applied to a store
holding the matching row `c3Row` and to a repeated concrete approval
payload. -/
theorem C3_dedup_response_witness :
    emitLearningEvent c3Event [c3Row] "f" "now" = .ok (c3Row.id, [c3Row]) ∧
    (createApprovalLearningHandler cexPayloadTs []
      (createApprovalLearningHandler cexPayloadTs [] [] "u1" "t1").db
      "u2" "t2").resp.id = "u2" ∧
    (createApprovalLearningHandler cexPayloadTs []
      (createApprovalLearningHandler cexPayloadTs [] [] "u1" "t1").db
      "u2" "t2").db = (createApprovalLearningHandler cexPayloadTs [] [] "u1" "t1").db :=
  C3_dedup_response_amended c3Event [c3Row] "f" "now" c3Row (by simp) rfl rfl
    (by simp [hashesNodup]) cexPayloadTs [] [] "u1" "u2" "t1" "t2"
    "2024-01-01T00:00:00.000Z" rfl (by decide)

/- ============================================================
   Claim C4
   ============================================================ -/

theorem keys_ofList (l : List (String × JsonVal)) :
    (JsonFields.ofList l).keys = l.map Prod.fst := by
  induction l with
  | nil => rfl
  | cons p rest ih =>
    cases p
    simp [JsonFields.ofList, JsonFields.keys, ih]

theorem lookupKey_ofList_none (l : List (String × JsonVal)) (k : String) :
    (JsonFields.ofList l).lookupKey k = none ↔ k ∉ l.map Prod.fst := by
  induction l with
  | nil => simp [JsonFields.ofList, JsonFields.lookupKey]
  | cons p rest ih =>
    cases p with
    | mk k2 v2 =>
      simp only [JsonFields.ofList, JsonFields.lookupKey, List.map_cons, List.mem_cons]
      by_cases h : k2 = k
      · simp [h]
      · rw [if_neg h, ih]
        constructor
        · intro h1 h2
          rcases h2 with h2 | h2
          · exact h h2.symm
          · exact h1 h2
        · intro h1 h2
          exact h1 (Or.inr h2)

theorem lookupKey_ofList_some (l : List (String × JsonVal))
    (hnd : (l.map Prod.fst).Nodup) (k : String) (v : JsonVal) :
    (JsonFields.ofList l).lookupKey k = some v ↔ (k, v) ∈ l := by
  induction l with
  | nil => simp [JsonFields.ofList, JsonFields.lookupKey]
  | cons p rest ih =>
    cases p with
    | mk k2 v2 =>
      simp only [List.map_cons, List.nodup_cons] at hnd
      simp only [JsonFields.ofList, JsonFields.lookupKey, List.mem_cons]
      by_cases h : k2 = k
      · subst h
        rw [if_pos rfl]
        constructor
        · intro hv
          left
          rw [Option.some_inj] at hv
          rw [hv]
        · rintro (heq | hmem)
          · rw [Option.some_inj]
            exact (congrArg Prod.snd heq).symm
          · exact absurd (List.mem_map.mpr ⟨(k2, v), hmem, rfl⟩) hnd.1
      · rw [if_neg h, ih hnd.2]
        constructor
        · exact Or.inr
        · rintro (heq | hmem)
          · exact absurd (congrArg Prod.fst heq).symm h
          · exact hmem

theorem lookupKey_perm (l1 l2 : List (String × JsonVal)) (hperm : l1.Perm l2)
    (hnd : (l1.map Prod.fst).Nodup) (k : String) :
    (JsonFields.ofList l1).lookupKey k = (JsonFields.ofList l2).lookupKey k := by
  have hnd2 : (l2.map Prod.fst).Nodup := ((hperm.map Prod.fst).nodup_iff).mp hnd
  cases h1 : (JsonFields.ofList l1).lookupKey k with
  | some v =>
    have hm : (k, v) ∈ l1 := (lookupKey_ofList_some l1 hnd k v).mp h1
    exact ((lookupKey_ofList_some l2 hnd2 k v).mpr (hperm.mem_iff.mp hm)).symm
  | none =>
    have hm : k ∉ l1.map Prod.fst := (lookupKey_ofList_none l1 k).mp h1
    have hm2 : k ∉ l2.map Prod.fst := fun hk => hm ((hperm.map Prod.fst).mem_iff.mpr hk)
    exact ((lookupKey_ofList_none l2 k).mpr hm2).symm

theorem sortStrings_perm_eq (l1 l2 : List String) (h : l1.Perm l2) :
    sortStrings l1 = sortStrings l2 := by
  unfold sortStrings
  exact List.eq_of_perm_of_sorted
    ((List.perm_insertionSort _ l1).trans (h.trans (List.perm_insertionSort _ l2).symm))
    (List.sorted_insertionSort _ l1)
    (List.sorted_insertionSort _ l2)

theorem fieldsSizeB_ofList (l : List (String × JsonVal)) :
    fieldsSizeB (JsonFields.ofList l) = 1 + (l.map (fun p => 1 + jsonSizeB p.2)).sum := by
  induction l with
  | nil => rfl
  | cons p rest ih =>
    cases p
    simp only [JsonFields.ofList, fieldsSizeB, ih, List.map_cons, List.sum_cons]
    omega

theorem serializeKeysWithList_congr (fuel : Nat) (allKeys : List String)
    (o1 o2 : JsonFields) (h : ∀ k, o1.lookupKey k = o2.lookupKey k) :
    ∀ ks : List String,
      serializeKeysWithList fuel allKeys ks o1 = serializeKeysWithList fuel allKeys ks o2 := by
  induction fuel with
  | zero => intro ks; rfl
  | succ m ih =>
    intro ks
    cases ks with
    | nil => rfl
    | cons k ks2 =>
      simp only [serializeKeysWithList]
      rw [h k]
      cases o2.lookupKey k with
      | none => exact ih ks2
      | some v =>
        have hany : jsonFieldsAnyKey o1 ks2 = jsonFieldsAnyKey o2 ks2 := by
          simp [jsonFieldsAnyKey, h]
        rw [hany, ih ks2]

theorem serializeWithList_obj_congr (fuel : Nat) (keys : List String)
    (o1 o2 : JsonFields) (h : ∀ k, o1.lookupKey k = o2.lookupKey k) :
    serializeWithList fuel keys (.obj o1) = serializeWithList fuel keys (.obj o2) := by
  cases fuel with
  | zero => rfl
  | succ m =>
    simp only [serializeWithList]
    rw [serializeKeysWithList_congr m keys _ _ h keys]

theorem buildFieldsFromKeys_congr (o1 o2 : JsonFields)
    (h : ∀ k, o1.lookupKey k = o2.lookupKey k) :
    ∀ ks : List String, buildFieldsFromKeys o1 ks = buildFieldsFromKeys o2 ks := by
  intro ks
  induction ks with
  | nil => rfl
  | cons k ks2 ih =>
    simp only [buildFieldsFromKeys]
    rw [h k, ih]

theorem canonicalFeedback_perm (l1 l2 : List (String × JsonVal))
    (hperm : l1.Perm l2) (hnd : (l1.map Prod.fst).Nodup) :
    canonicalFeedback (JsonFields.ofList l1) = canonicalFeedback (JsonFields.ofList l2) := by
  have hkeys : sortStrings (JsonFields.ofList l1).keys =
      sortStrings (JsonFields.ofList l2).keys := by
    rw [keys_ofList, keys_ofList]
    exact sortStrings_perm_eq _ _ (hperm.map Prod.fst)
  have hlk : ∀ k, (JsonFields.ofList l1).lookupKey k = (JsonFields.ofList l2).lookupKey k :=
    lookupKey_perm l1 l2 hperm hnd
  have hsize : jsonSizeB (.obj (JsonFields.ofList l1)) =
      jsonSizeB (.obj (JsonFields.ofList l2)) := by
    simp only [jsonSizeB]
    rw [fieldsSizeB_ofList, fieldsSizeB_ofList, (hperm.map (fun p => 1 + jsonSizeB p.2)).sum_eq]
  simp only [canonicalFeedback]
  rw [hkeys, hsize]
  exact serializeWithList_obj_congr _ _ _ _ hlk

theorem canonicalApproval_perm (l1 l2 : List (String × JsonVal))
    (hperm : l1.Perm l2) (hnd : (l1.map Prod.fst).Nodup) :
    canonicalApproval (JsonFields.ofList l1) = canonicalApproval (JsonFields.ofList l2) := by
  have hkeys : sortStrings (JsonFields.ofList l1).keys =
      sortStrings (JsonFields.ofList l2).keys := by
    rw [keys_ofList, keys_ofList]
    exact sortStrings_perm_eq _ _ (hperm.map Prod.fst)
  have hlk : ∀ k, (JsonFields.ofList l1).lookupKey k = (JsonFields.ofList l2).lookupKey k :=
    lookupKey_perm l1 l2 hperm hnd
  unfold canonicalApproval
  rw [hkeys, buildFieldsFromKeys_congr _ _ hlk]

/-- C4 (counterexample): two inputs objects that differ in a NESTED value
("1" vs "99") serialize differently as plain JSON, yet the feedback
handler's canonicalization — `JSON.stringify` with the sorted TOP-LEVEL key
array as replacer — renders them identically, so their fingerprints
collide; the hash is not sensitive to the full inputs content as claimed. -/
theorem C4_hash_canonicalization_counterexample :
    jsonSerialize (.obj (JsonFields.ofList c4Nested1)) ≠
      jsonSerialize (.obj (JsonFields.ofList c4Nested2)) ∧
    canonicalFeedback (JsonFields.ofList c4Nested1) =
      canonicalFeedback (JsonFields.ofList c4Nested2) ∧
    computeInputsHashFeedback c4Nested1 = computeInputsHashFeedback c4Nested2 := by
  refine ⟨by decide, by decide, congrArg sha256Hex (by decide)⟩

/-- C4 (amended): both fingerprint canonicalizations are invariant under the
insertion order of the top-level properties (for duplicate-free keys): any
permutation of the inputs association list yields the same feedback hash and
the same approval hash. Sensitivity to nested values holds only for the
approval variant; the feedback variant's replacer drops nested properties
whose names are not among the sorted top-level keys. -/
theorem C4_hash_insertion_order_amended (l1 l2 : List (String × JsonVal))
    (hperm : l1.Perm l2) (hnd : (l1.map Prod.fst).Nodup) :
    computeInputsHashFeedback l1 = computeInputsHashFeedback l2 ∧
    computeInputsHashApproval l1 = computeInputsHashApproval l2 :=
  ⟨congrArg sha256Hex (canonicalFeedback_perm l1 l2 hperm hnd),
   congrArg sha256Hex (canonicalApproval_perm l1 l2 hperm hnd)⟩

/-- C4 (witness): the amended invariance theorem applied to the two insertion
orders of a concrete flat two-field object. -/
theorem C4_hash_insertion_order_witness :
    computeInputsHashFeedback c4Flat1 = computeInputsHashFeedback c4Flat2 ∧
    computeInputsHashApproval c4Flat1 = computeInputsHashApproval c4Flat2 :=
  C4_hash_insertion_order_amended c4Flat1 c4Flat2
    (List.Perm.swap ("a", JsonVal.num 3) ("b", JsonVal.str "v1") []) (by decide)

/- ============================================================
   Claim C5
   ============================================================ -/

/-- C5: the normalized approval signal is the base signal +1 (approved) or
-1 (rejected) when no adjustment is given, and the base signal times
`(1 + adjustment)` clamped to [-1, 1] otherwise; in particular
(true, none) gives 1, (false, none) gives -1, (true, -1) gives 0 and
(true, 1) clamps to 1. -/
theorem C5_signal_normalization :
    normalizeApprovalSignal true none = 1 ∧
    normalizeApprovalSignal false none = -1 ∧
    normalizeApprovalSignal true (some (-1)) = 0 ∧
    normalizeApprovalSignal true (some 1) = 1 ∧
    (∀ adj : ℚ, normalizeApprovalSignal true (some adj) =
      max (-1) (min 1 (1 * (1 + adj)))) ∧
    (∀ adj : ℚ, normalizeApprovalSignal false (some adj) =
      max (-1) (min 1 ((-1) * (1 + adj)))) := by
  refine ⟨rfl, rfl, ?_, ?_, fun adj => rfl, fun adj => rfl⟩
  · norm_num [normalizeApprovalSignal]
  · norm_num [normalizeApprovalSignal]

/- ============================================================
   Claim C6
   ============================================================ -/

/-- C6: without structured ratings the feedback normalizer derives one
sentiment — the type's base sentiment (approval 0.8, rejection -0.8,
suggestion 0.3, critique -0.3, rating 0, anything else 0) plus 0.2 times
(positive keyword hits minus negative keyword hits), clamped to [-1, 1] —
and replicates it across the four dimensions at confidence 0.6; text with
three positive and one negative keyword and type "suggestion" yields 0.7
everywhere. -/
theorem C6_feedback_dimensions :
    baseSentiment "approval" = 0.8 ∧
    baseSentiment "rejection" = -0.8 ∧
    baseSentiment "suggestion" = 0.3 ∧
    baseSentiment "critique" = -0.3 ∧
    baseSentiment "rating" = 0 ∧
    baseSentiment "something-else" = 0 ∧
    (∀ ft raw : String, deriveSentimentFromFeedbackType ft raw =
      max (-1) (min 1 (baseSentiment ft +
        (((positiveKeywords.filter (fun kw => containsSub (jsToLower raw) kw)).length : ℚ) -
         ((negativeKeywords.filter (fun kw => containsSub (jsToLower raw) kw)).length : ℚ))
          * 0.2))) ∧
    (∀ raw ft : String, parseFeedbackDimensions raw ft none =
      [{ dimension := "quality", value := deriveSentimentFromFeedbackType ft raw,
         confidence := 0.6 },
       { dimension := "clarity", value := deriveSentimentFromFeedbackType ft raw,
         confidence := 0.6 },
       { dimension := "accuracy", value := deriveSentimentFromFeedbackType ft raw,
         confidence := 0.6 },
       { dimension := "completeness", value := deriveSentimentFromFeedbackType ft raw,
         confidence := 0.6 }]) ∧
    parseFeedbackDimensions "excellent great good poor" "suggestion" none =
      [{ dimension := "quality", value := 0.7, confidence := 0.6 },
       { dimension := "clarity", value := 0.7, confidence := 0.6 },
       { dimension := "accuracy", value := 0.7, confidence := 0.6 },
       { dimension := "completeness", value := 0.7, confidence := 0.6 }] := by
  refine ⟨rfl, rfl, rfl, rfl, rfl, rfl, fun ft raw => rfl, fun raw ft => rfl, ?_⟩
  have hp : ((positiveKeywords.filter
      (fun kw => containsSub (jsToLower "excellent great good poor") kw)).length) = 3 := by
    decide
  have hn : ((negativeKeywords.filter
      (fun kw => containsSub (jsToLower "excellent great good poor") kw)).length) = 1 := by
    decide
  have hv : deriveSentimentFromFeedbackType "suggestion" "excellent great good poor" = 0.7 := by
    rw [show deriveSentimentFromFeedbackType "suggestion" "excellent great good poor" =
        max (-1) (min 1 (baseSentiment "suggestion" +
          (((positiveKeywords.filter
              (fun kw => containsSub (jsToLower "excellent great good poor") kw)).length : ℚ) -
           ((negativeKeywords.filter
              (fun kw => containsSub (jsToLower "excellent great good poor") kw)).length : ℚ))
            * 0.2)) from rfl,
      hp, hn, show baseSentiment "suggestion" = 0.3 from rfl]
    norm_num
  rw [show parseFeedbackDimensions "excellent great good poor" "suggestion" none =
      [{ dimension := "quality",
         value := deriveSentimentFromFeedbackType "suggestion" "excellent great good poor",
         confidence := 0.6 },
       { dimension := "clarity",
         value := deriveSentimentFromFeedbackType "suggestion" "excellent great good poor",
         confidence := 0.6 },
       { dimension := "accuracy",
         value := deriveSentimentFromFeedbackType "suggestion" "excellent great good poor",
         confidence := 0.6 },
       { dimension := "completeness",
         value := deriveSentimentFromFeedbackType "suggestion" "excellent great good poor",
         confidence := 0.6 }] from rfl, hv]

/- ============================================================
   Claim C7
   ============================================================ -/

theorem normalizeApprovalSignal_bounds (b : Bool) (adj : Option ℚ) :
    -1 ≤ normalizeApprovalSignal b adj ∧ normalizeApprovalSignal b adj ≤ 1 := by
  cases adj with
  | none => cases b <;> constructor <;> norm_num [normalizeApprovalSignal]
  | some a =>
    have h1 : normalizeApprovalSignal b (some a) =
        max (-1) (min 1 ((if b then (1 : ℚ) else -1) * (1 + a))) := rfl
    rw [h1]
    exact ⟨le_max_left _ _, max_le (by norm_num) (min_le_left _ _)⟩

theorem approvalConfidence_bounds (s : ℚ) (h1 : -1 ≤ s) (h2 : s ≤ 1) (sf rk : Bool) :
    0 ≤ approvalConfidence s sf rk ∧ approvalConfidence s sf rk ≤ 1 := by
  have habs0 : 0 ≤ |s| := abs_nonneg s
  have habs1 : |s| ≤ 1 := abs_le.mpr ⟨h1, h2⟩
  cases sf <;> cases rk
  · exact ⟨habs0, habs1⟩
  · show 0 ≤ min 1 (|s| + 0.05) ∧ min 1 (|s| + 0.05) ≤ 1
    exact ⟨le_min (by norm_num) (by linarith), min_le_left _ _⟩
  · show 0 ≤ min 1 (|s| + 0.1) ∧ min 1 (|s| + 0.1) ≤ 1
    exact ⟨le_min (by norm_num) (by linarith), min_le_left _ _⟩
  · show 0 ≤ min 1 (min 1 (|s| + 0.1) + 0.05) ∧ min 1 (min 1 (|s| + 0.1) + 0.05) ≤ 1
    have h3 : (0 : ℚ) ≤ min 1 (|s| + 0.1) := le_min (by norm_num) (by linarith)
    exact ⟨le_min (by norm_num) (by linarith), min_le_left _ _⟩

/-- C7: the approval handler's stored/returned confidence is
`abs(normalized signal)`, +0.1 capped at 1 when a source decision was found,
+0.05 capped at 1 when the reviewer role is known; it always lies in
[0, 1]. -/
theorem C7_confidence_bounds :
    (∀ (p : ApprovalPayload) (D : List DecisionRow) (db : List LearningEventRow) (u t : String),
      (createApprovalLearningHandler p D db u t).resp.confidence =
        approvalConfidence (normalizeApprovalSignal p.approved p.confidence_adjustment)
          ((match p.decision_id with
            | none => (none : Option DecisionRow)
            | some d => D.find? (fun r => r.id == d)).isSome)
          (reviewerRoleKnown p.reviewer_role)) ∧
    (∀ (p : ApprovalPayload) (D : List DecisionRow) (db : List LearningEventRow) (u t : String),
      0 ≤ (createApprovalLearningHandler p D db u t).resp.confidence ∧
        (createApprovalLearningHandler p D db u t).resp.confidence ≤ 1) := by
  refine ⟨fun p D db u t => rfl, fun p D db u t => ?_⟩
  have he : (createApprovalLearningHandler p D db u t).resp.confidence =
      approvalConfidence (normalizeApprovalSignal p.approved p.confidence_adjustment)
        ((match p.decision_id with
          | none => (none : Option DecisionRow)
          | some d => D.find? (fun r => r.id == d)).isSome)
        (reviewerRoleKnown p.reviewer_role) := rfl
  rw [he]
  have hb := normalizeApprovalSignal_bounds p.approved p.confidence_adjustment
  exact approvalConfidence_bounds _ hb.1 hb.2 _ _

/- ============================================================
   Claim C8
   ============================================================ -/

/-- C8: a cursor that fails to parse (fewer than three colon-separated
segments, or a non-numeric trailing segment, e.g. "garbage") makes
GET /events/decisions behave exactly as if no cursor were passed, with
HTTP 200; a well-formed cursor is decomposed into leading type tag,
middle segments rejoined with ":" as the row id, and trailing numeric
timestamp. -/
theorem C8_malformed_cursor :
    (∀ (D : List DecisionRow) (A : List ApprovalRow) (types lim : Option String) (c : String),
      parseCursor c = none →
      listDecisionEventsHandler D A types (some c) lim =
        listDecisionEventsHandler D A types none lim) ∧
    (listDecisionEventsHandler c1Decisions c1Approvals none (some "garbage") none).1 = 200 ∧
    parseCursor "garbage" = none ∧
    (∀ c : String, (jsSplit c ':').length < 3 → parseCursor c = none) ∧
    (∀ (c : String) (cp : CursorParts), parseCursor c = some cp →
      cp.type = (jsSplit c ':').headD "" ∧
      cp.id = joinColon (((jsSplit c ':').drop 1).dropLast) ∧
      some cp.timestampMs = (jsSplit c ':').getLast?.bind jsParseInt) := by
  refine ⟨?_, rfl, by decide, ?_, ?_⟩
  · intro D A types lim c hc
    have hcur : cursorOf (some c) = none := by
      show (if c = "" then none else parseCursor c) = none
      by_cases he : c = ""
      · rw [if_pos he]
      · rw [if_neg he, hc]
    simp only [listDecisionEventsHandler, listDecisionEvents]
    rw [hcur, show cursorOf none = (none : Option CursorParts) from rfl]
  · intro c hlen
    simp only [parseCursor]
    rw [if_pos hlen]
  · intro c cp h
    simp only [parseCursor] at h
    by_cases hlen : (jsSplit c ':').length < 3
    · rw [if_pos hlen] at h
      cases h
    · rw [if_neg hlen] at h
      rcases Option.bind_eq_some.mp h with ⟨tsStr, hlast, hmap⟩
      rcases Option.map_eq_some'.mp hmap with ⟨n, hparse, hcp⟩
      cases hcp
      refine ⟨rfl, rfl, ?_⟩
      rw [hlast]
      simpa using hparse.symm

/-- C8 (witness): the malformed-cursor theorem applied to the cursor
"garbage" on a concrete store, to a two-segment cursor, and to a concrete
well-formed cursor. -/
theorem C8_malformed_cursor_witness :
    listDecisionEventsHandler c1Decisions c1Approvals none (some "garbage") none =
      listDecisionEventsHandler c1Decisions c1Approvals none none none ∧
    parseCursor "not:enough" = none ∧
    (({ type := "plan_created", id := "d1", timestampMs := 10 } : CursorParts).type =
        (jsSplit "plan_created:d1:10" ':').headD "" ∧
      ({ type := "plan_created", id := "d1", timestampMs := 10 } : CursorParts).id =
        joinColon (((jsSplit "plan_created:d1:10" ':').drop 1).dropLast) ∧
      some ({ type := "plan_created", id := "d1",
              timestampMs := 10 } : CursorParts).timestampMs =
        (jsSplit "plan_created:d1:10" ':').getLast?.bind jsParseInt) :=
  ⟨C8_malformed_cursor.1 c1Decisions c1Approvals none none "garbage" (by decide),
   C8_malformed_cursor.2.2.2.1 "not:enough" (by decide),
   C8_malformed_cursor.2.2.2.2 "plan_created:d1:10" _ (by decide)⟩

/- ============================================================
   Claim C9
   ============================================================ -/

/-- C9: the effective page size of GET /events/decisions is clamped to
[1, 1000], defaults to 100 when the limit parameter is absent, and bounds
the number of returned events. -/
theorem C9_limit_clamp :
    effLimit none = 100 ∧
    (∀ l : Option String, 1 ≤ effLimit l ∧ effLimit l ≤ 1000) ∧
    (∀ (D : List DecisionRow) (A : List ApprovalRow) (t a l : Option String),
      (listDecisionEvents D A t a l).events.length ≤ effLimit l) := by
  refine ⟨by decide, ?_, ?_⟩
  · intro l
    have hgen : ∀ raw : Int, 1 ≤ (min (max raw 1) (MAX_LIMIT : Int)).toNat ∧
        (min (max raw 1) (MAX_LIMIT : Int)).toNat ≤ 1000 := by
      intro raw
      rw [show (MAX_LIMIT : Int) = 1000 from rfl]
      omega
    cases l with
    | none =>
      show 1 ≤ (min (max (DEFAULT_LIMIT : Int) 1) (MAX_LIMIT : Int)).toNat ∧
        (min (max (DEFAULT_LIMIT : Int) 1) (MAX_LIMIT : Int)).toNat ≤ 1000
      exact hgen _
    | some s =>
      show 1 ≤ (min (max (match jsParseInt s with
          | none => (DEFAULT_LIMIT : Int)
          | some m => if m = 0 then (DEFAULT_LIMIT : Int) else m) 1) (MAX_LIMIT : Int)).toNat ∧
        (min (max (match jsParseInt s with
          | none => (DEFAULT_LIMIT : Int)
          | some m => if m = 0 then (DEFAULT_LIMIT : Int) else m) 1) (MAX_LIMIT : Int)).toNat ≤
          1000
      exact hgen _
  · intro D A t a l
    show ((List.insertionSort eventLe _).take (effLimit l)).length ≤ effLimit l
    exact List.length_take_le _ _

/- ============================================================
   Claim C10
   ============================================================ -/

/-- C10: requesting exactly the type "plan_deferred" still queries the
approvals relation with no restriction on the approved flag, so the
response contains plan_approved and plan_rejected events — types outside
the requested filter set. -/
theorem C10_type_filter_leak :
    parseEventTypes (some "plan_deferred") = some ["plan_deferred"] ∧
    ((listDecisionEvents c10Decisions c10Approvals (some "plan_deferred") none none).events.map
      (fun e => e.type)) = [.plan_approved, .plan_rejected] := by
  refine ⟨by decide, by decide⟩

end RuvSvc
